import Mathlib

/-!
# The karere logger (`src/base/logger.cpp`)

A shallow embedding of the multi-sink logger: the level-name table and
`krLogLevelStrToNum`, the prefix and message formatting of `Logger::logv`,
the fan-out of `Logger::logString`, the user-backend registry and the
`KRLOG` configuration of `Logger::setupFromEnvVar`.

Conventions of the embedding.

* A C string is the list of its bytes (`List Nat`); the terminating zero is
  implicit at the end of the list, and a zero inside the list ends the string
  there, as it would in memory.
* A `char` buffer is a function from the offset to the byte stored there, with
  the list of the offsets written so far; an offset at or beyond the size of
  the object is a write outside of it.
* `size_t` is 64 bits wide, `int` and `unsigned` are 32 bits wide; arithmetic
  that can wrap is reduced explicitly.
* The console, file and user backends are collaborators: what the logger does
  to them is the list of calls it makes, in order.
-/

namespace karere

/-! ## Machine integers -/

/-- Number of values of a `size_t`. -/
def SIZE_MOD : Nat := 2 ^ 64

/-- The value of `(size_t)-1`. -/
def SIZE_MAX : Nat := 2 ^ 64 - 1

/-- The value of `(unsigned)-1`. -/
def UNSIGNED_MINUS_ONE : Nat := 2 ^ 32 - 1

/-- The largest `int`. -/
def INT_MAX : Int := 2 ^ 31 - 1

/-- Conversion of an integer value to `int` (two's complement, 32 bits). -/
def toInt32 (z : Int) : Int := (z + 2 ^ 31) % 2 ^ 32 - 2 ^ 31

/-- Conversion of an integer value to `size_t`. -/
def toSizeT (z : Int) : Nat := (z % 2 ^ 64).toNat

/-- Subtraction of two `size_t` values. -/
def sizeSub (a b : Nat) : Nat := (a + SIZE_MOD - b % SIZE_MOD) % SIZE_MOD

/-- The compile-time default of `LOGGER_SPRINTF_BUF_SIZE`. -/
def LOGGER_SPRINTF_BUF_SIZE : Nat := 10240

/-! ## C strings -/

/-- The bytes of a C string, without the terminating zero. -/
abbrev CString := List Nat

/-- The bytes of an ASCII literal of the source. -/
def lit (s : String) : CString := s.toList.map Char.toNat

/-- The function `tolower` of the C locale. -/
def tolower (c : Nat) : Nat := if 65 ≤ c ∧ c ≤ 90 then c + 32 else c

/-- The function `strcasecmp`: the difference of the first pair of bytes that
differ after `tolower`, zero when the strings agree up to their terminators. -/
def strcasecmp : CString → CString → Int
  | [], [] => 0
  | [], b :: _ => 0 - (tolower b : Int)
  | a :: _, [] => (tolower a : Int)
  | a :: as, b :: bs =>
    if tolower a = tolower b then
      (if a = 0 then 0 else strcasecmp as bs)
    else (tolower a : Int) - (tolower b : Int)

/-- The function `strlen` on a buffer: the offset of the first zero byte (the
search is bounded by the size of the address space). -/
def strlenFrom (bytes : Nat → Nat) : Nat → Nat → Nat
  | 0, i => i
  | fuel + 1, i => if bytes i = 0 then i else strlenFrom bytes fuel (i + 1)

/-- The function `strlen`. -/
def strlen (bytes : Nat → Nat) : Nat := strlenFrom bytes SIZE_MAX 0

/-- The comparison of two `std::string` keys (`operator<`): lexicographic on
the bytes. -/
def strLt : CString → CString → Bool
  | [], [] => false
  | [], _ :: _ => true
  | _ :: _, [] => false
  | a :: as, b :: bs => if a < b then true else if b < a then false else strLt as bs

/-! ## Severity levels and their names -/

/-- Modelled from the spec: the level enum of `logger.h` (not among the
sources), which the source keeps in sync with the rows of `krLogLevelNames`;
the spec orders the levels from `off` to `debugVerbose`. Level `off`. -/
def krLogLevelOff : Nat := 0

/-- Modelled from the spec: level `error` of the enum of `logger.h`. -/
def krLogLevelError : Nat := 1

/-- Modelled from the spec: level `warn` of the enum of `logger.h`. -/
def krLogLevelWarn : Nat := 2

/-- Modelled from the spec: level `info` of the enum of `logger.h`. -/
def krLogLevelInfo : Nat := 3

/-- Modelled from the spec: level `verbose` of the enum of `logger.h`. -/
def krLogLevelVerbose : Nat := 4

/-- Modelled from the spec: level `debug` of the enum of `logger.h`. -/
def krLogLevelDebug : Nat := 5

/-- Modelled from the spec: level `debugVerbose` of the enum of `logger.h`. -/
def krLogLevelDebugVerbose : Nat := 6

/-- The last level; the table `krLogLevelNames` has `krLogLevelLast + 1` rows. -/
def krLogLevelLast : Nat := krLogLevelDebugVerbose

/-- The type `KarereLogLevelName`: the short code (`name[0]`, possibly `NULL`)
and the long name (`name[1]`). -/
abbrev KarereLogLevelName := Option CString × CString

/-- The table `krLogLevelNames`. -/
def krLogLevelNames : List KarereLogLevelName :=
  [ (none, lit "off"), (some (lit "ERR"), lit "error"), (some (lit "WRN"), lit "warn"),
    (some (lit "nfo"), lit "info"), (some (lit "vrb"), lit "verbose"),
    (some (lit "dbg"), lit "debug"), (some (lit "dbg"), lit "debugv") ]

/-- The test of the loop body of `krLogLevelStrToNum`: the long name matches,
or the short code is not `NULL` and matches. -/
def levelNameMatches (strLevel : CString) (name : KarereLogLevelName) : Bool :=
  decide (strcasecmp strLevel name.2 = 0) ||
    (match name.1 with
     | none => false
     | some short => decide (strcasecmp strLevel short = 0))

/-- The loop of `krLogLevelStrToNum` over the rows from index `n` on. -/
def krLogLevelStrToNumFrom (strLevel : CString) : List KarereLogLevelName → Nat → Nat
  | [], _ => UNSIGNED_MINUS_ONE
  | name :: rest, n =>
    if levelNameMatches strLevel name then n
    else krLogLevelStrToNumFrom strLevel rest (n + 1)

/-- The function `krLogLevelStrToNum`. -/
def krLogLevelStrToNum (strLevel : CString) : Nat :=
  krLogLevelStrToNumFrom strLevel krLogLevelNames 0

/-! ## Character buffers -/

/-- A `char` array seen from its first element: the byte at each offset and
the offsets written so far, the most recent first. -/
structure Buffer where
  bytes : Nat → Nat
  written : List Nat

/-- The assignment `buf[i] = v`. -/
def Buffer.write (buf : Buffer) (i v : Nat) : Buffer :=
  ⟨fun j => if j = i then v else buf.bytes j, i :: buf.written⟩

/-- Consecutive assignments of the bytes of `data` from offset `off` on. -/
def Buffer.writeList (buf : Buffer) (off : Nat) : List Nat → Buffer
  | [] => buf
  | c :: rest => (buf.write off c).writeList (off + 1) rest

/-- The call `memcpy(buf, src, n)`. -/
def memcpy (buf : Buffer) (src : Nat → Nat) (n : Nat) : Buffer :=
  ⟨fun j => if j < n then src j else buf.bytes j, (List.range n).reverse ++ buf.written⟩

/-- The first `n` bytes of a buffer. -/
def Buffer.content (buf : Buffer) (n : Nat) : List Nat := (List.range n).map buf.bytes

/-- The call `strftime(buf + off, max, fmt, tm)`, where `stamp` is the text
that the format renders to at the current time: the text and its terminator are
stored and its length is returned when they fit into `max` bytes; otherwise the
result is 0 (C leaves the array contents unspecified then; the model leaves
them as they were). -/
def strftime (buf : Buffer) (off max : Nat) (stamp : CString) : Buffer × Nat :=
  if stamp.length < max then (buf.writeList off (stamp ++ [0]), stamp.length) else (buf, 0)

/-- The call `vsnprintf(buf + off, size, fmt, args)`, where `rendered` is the
text that the format and its arguments produce: at most `size - 1` bytes of it
and a terminator are stored (nothing when `size` is 0) and the full length is
returned; a text longer than `INT_MAX` is an error, with a negative result. -/
def vsnprintf (buf : Buffer) (off size : Nat) (rendered : CString) : Buffer × Int :=
  if (rendered.length : Int) > INT_MAX then (buf, -1)
  else if size = 0 then (buf, (rendered.length : Int))
  else
    ((buf.writeList off (rendered.take (size - 1))).write
        (off + min rendered.length (size - 1)) 0,
      (rendered.length : Int))

/-- The loop of `myStrncpy`, from the state `(count, dptr)` with `src` the
bytes from `sptr` on: the buffer, `count` and `dptr` when the loop is left. -/
def myStrncpyLoop (maxCount : Nat) : CString → Nat → Nat → Buffer → Buffer × Nat × Nat
  | [], count, dptr, buf =>
    if count ≤ maxCount then (buf.write dptr 0, count, dptr) else (buf, count, dptr)
  | c :: rest, count, dptr, buf =>
    if count ≤ maxCount then
      if c = 0 then (buf.write dptr 0, count, dptr)
      else myStrncpyLoop maxCount rest (count + 1) (dptr + 1) (buf.write dptr c)
    else (buf, count, dptr)

/-- The function `myStrncpy(buf + dest, src, maxCount)`: the buffer afterwards
and the returned count. -/
def myStrncpy (buf : Buffer) (dest : Nat) (src : CString) (maxCount : Nat) : Buffer × Nat :=
  let r := myStrncpyLoop maxCount src 1 dest buf
  if r.2.1 > maxCount then
    (r.1.write ((r.2.2 + sizeSub maxCount 1) % SIZE_MOD) 0, sizeSub maxCount 1)
  else (r.1, r.2.1 - 1)

/-! ## Routing flags, channels and backends -/

/-- The routing flag constants. They are declared in `logger.h`, which is not
part of the sources at hand, so their values are a parameter of the model. -/
structure FlagValues where
  krLogNoTimestamps : Nat
  krLogNoLevel : Nat
  krLogNoFile : Nat
  krLogNoConsole : Nat
  krLogNoAutoFlush : Nat
  krGlobalFlagMask : Nat
  deriving DecidableEq, Repr

/-- Modelled from the spec: the flag constants of `logger.h` (not among the
sources), which the spec describes as the independent toggles of a bitset:
one assignment of distinct bits, all of them global, for evaluating the model. -/
def exampleFlags : FlagValues :=
  { krLogNoTimestamps := 0x10, krLogNoLevel := 0x20, krLogNoFile := 0x40,
    krLogNoConsole := 0x80, krLogNoAutoFlush := 0x100, krGlobalFlagMask := 0x1F0 }

/-- Modelled from the spec: the struct `KarereLogChannel` of `logger.h` (not
among the sources), with the members the code reads and writes: the id, the
display prefix (possibly `NULL`), the threshold and the default flags. -/
structure KarereLogChannel where
  id : CString
  display : Option CString
  logLevel : Nat
  flags : Nat
  deriving DecidableEq, Repr

/-- A console backend, as the object that `new ConsoleLogger` returned. -/
structure ConsoleLogger where
  obj : Nat
  deriving DecidableEq, Repr

/-- A file backend: the object and the arguments of its constructor. -/
structure FileLogger where
  obj : Nat
  flags : Nat
  fileName : CString
  rotateSize : Nat
  deriving DecidableEq, Repr

/-- A user backend, as the object the caller handed over. -/
structure ILoggerBackend where
  obj : Nat
  deriving DecidableEq, Repr

/-- A call the logger makes to a backend. -/
inductive BackendCall where
  | console (target : ConsoleLogger) (level : Nat) (msg : Nat → Nat) (flags : Nat)
  | file (target : FileLogger) (msg : Nat → Nat) (len : Nat) (flags : Nat)
  | user (target : ILoggerBackend) (level : Nat) (msg : Nat → Nat) (len : Nat) (flags : Nat)

/-- The backend a call is made to. -/
inductive Sink where
  | console (target : ConsoleLogger)
  | file (target : FileLogger)
  | user (target : ILoggerBackend)
  deriving DecidableEq, Repr

/-- The receiver of a call. -/
def BackendCall.sink : BackendCall → Sink
  | .console c _ _ _ => .console c
  | .file f _ _ _ => .file f
  | .user u _ _ _ _ => .user u

/-! ## The ordered map `std::map<std::string, V>` -/

/-- A `std::map<std::string, V>`: its entries in iteration order, which is the
ascending order of the keys. -/
abbrev StdMap (V : Type) := List (CString × V)

/-- The member `find`: the value stored under the key, if any. -/
def StdMap.find {V : Type} : StdMap V → CString → Option V
  | [], _ => none
  | (k1, v) :: rest, k => if k1 = k then some v else StdMap.find rest k

/-- The effect of `m[k] = v` (for a `unique_ptr` value, `m[k].reset(v)`): a new
entry at the place of the key in the order, or the value of the entry that is
there replaced. -/
def StdMap.assign {V : Type} : StdMap V → CString → V → StdMap V
  | [], k, v => [(k, v)]
  | (k1, v1) :: rest, k, v =>
    if strLt k k1 then (k, v) :: (k1, v1) :: rest
    else if strLt k1 k then (k1, v1) :: StdMap.assign rest k v
    else (k1, v) :: rest

/-- The member `erase` at the entry that `find` returned. -/
def StdMap.erase {V : Type} : StdMap V → CString → StdMap V
  | [], _ => []
  | (k1, v) :: rest, k => if k1 = k then rest else (k1, v) :: StdMap.erase rest k

/-- The keys of a map are strictly ascending. -/
def StdMap.Ordered {V : Type} (m : StdMap V) : Prop :=
  List.Pairwise (fun a b => strLt a.1 b.1 = true) m

/-! ## The logger -/

/-- Modelled from the spec: the type of the member `mUserLoggers`, which is
declared in `logger.h` (not among the sources). The spec has the user backends
keyed in an ordered mapping owned by the logger, and the code uses the member
as a map from the tag to the owned backend (`operator[]`, `find`, `erase`,
iteration over pairs), like the `std::map<std::string, ...>` of
`setupFromEnvVar`. -/
abbrev UserLoggerMap := StdMap ILoggerBackend

/-- The members of `Logger` that the functions below use. -/
structure Logger where
  mTimeFmt : CString
  mFlags : Nat
  mConsoleLogger : Option ConsoleLogger
  mFileLogger : Option FileLogger
  mUserLoggers : UserLoggerMap
  logChannels : List KarereLogChannel
  deriving DecidableEq, Repr

/-- The operator `&&` of C on two unsigned values. -/
def logicalAnd (a b : Nat) : Nat := if a ≠ 0 ∧ b ≠ 0 then 1 else 0

/-- The method `Logger::logToConsole`; `fresh` is what `new ConsoleLogger`
returns when it is evaluated. -/
def logToConsole (L : Logger) (enable : Bool) (fresh : ConsoleLogger) : Logger :=
  if enable then
    match L.mConsoleLogger with
    | some _ => L
    | none => { L with mConsoleLogger := some fresh }
  else
    match L.mConsoleLogger with
    | none => L
    | some _ => { L with mConsoleLogger := none }

/-- The method `Logger::logToFile`; `fileName = none` is the null pointer and
`fresh` is the address that `new FileLogger` returns when it is evaluated. -/
def logToFile (L : Logger) (fileName : Option CString) (rotateSizeKb : Nat) (fresh : Nat) :
    Logger :=
  match fileName with
  | none => { L with mFileLogger := none }
  | some name =>
    { L with mFileLogger := some ⟨fresh, L.mFlags, name, (rotateSizeKb * 1024) % SIZE_MOD⟩ }

/-- The method `Logger::setAutoFlush`. -/
def setAutoFlush (K : FlagValues) (L : Logger) (enable : Bool) : Logger :=
  if enable then
    { L with mFlags := L.mFlags &&& (UNSIGNED_MINUS_ONE ^^^ (K.krLogNoAutoFlush % 2 ^ 32)) }
  else
    { L with mFlags := L.mFlags ||| K.krLogNoAutoFlush }

/-- The method `Logger::logString`: the calls made to the backends, in order. -/
def logString (K : FlagValues) (L : Logger) (level : Nat) (msg : Nat → Nat)
    (flags len : Nat) : List BackendCall :=
  let len := if len = SIZE_MAX then strlen msg else len
  let flags := flags ||| (L.mFlags &&& K.krGlobalFlagMask)
  let toConsole :=
    match L.mConsoleLogger with
    | some c => if flags &&& K.krLogNoFile = 0 then [BackendCall.console c level msg flags] else []
    | none => []
  let toFile :=
    match L.mFileLogger with
    | some f =>
      if logicalAnd flags K.krLogNoConsole = 0 then [BackendCall.file f msg len flags] else []
    | none => []
  let toUsers :=
    if L.mUserLoggers.isEmpty then []
    else L.mUserLoggers.map fun logger => BackendCall.user logger.2 level msg len flags
  toConsole ++ toFile ++ toUsers

/-- The method `Logger::addUserLogger`. -/
def addUserLogger (L : Logger) (tag : CString) (logger : ILoggerBackend) : Logger :=
  { L with mUserLoggers := L.mUserLoggers.assign tag logger }

/-- The method `Logger::removeUserLogger`: the returned flag and the logger
afterwards. -/
def removeUserLogger (L : Logger) (tag : CString) : Bool × Logger :=
  match L.mUserLoggers.find tag with
  | none => (false, L)
  | some _ => (true, { L with mUserLoggers := L.mUserLoggers.erase tag })

/-! ## Formatting a line -/

/-- What a call of `logv` depends on besides the logger and its arguments: the
text of the timestamp at the time of the call, and the contents of the stack
array and of the heap block before they are written. -/
structure Env where
  stamp : CString
  stack : Nat → Nat
  heap : Nat → Nat

/-- One bracketed part of the prefix written with `myStrncpy`: the opening
bracket, the copy, the closing bracket. -/
def prependPart (buf : Buffer) (bufSize bytesLogged : Nat) (text : CString) : Buffer × Nat :=
  let buf := buf.write bytesLogged 91
  let bytesLogged := bytesLogged + 1
  let r := myStrncpy buf bytesLogged text (sizeSub bufSize bytesLogged)
  let bytesLogged := (bytesLogged + r.2) % SIZE_MOD
  (r.1.write bytesLogged 93, bytesLogged + 1)

/-- The method `Logger::prependInfo`: the buffer afterwards and the returned
count. -/
def prependInfo (K : FlagValues) (L : Logger) (stamp : CString) (buf : Buffer) (bufSize : Nat)
    (pfx severity : Option CString) : Buffer × Nat :=
  let s1 : Buffer × Nat :=
    if L.mFlags &&& K.krLogNoTimestamps = 0 then
      let b := buf.write 0 91
      let r := strftime b 1 (sizeSub bufSize 1) stamp
      (r.1.write (1 + r.2) 93, 1 + r.2 + 1)
    else (buf, 0)
  let s2 : Buffer × Nat :=
    match severity with
    | some text => prependPart s1.1 bufSize s1.2 text
    | none => s1
  let s3 : Buffer × Nat :=
    match pfx with
    | some text => prependPart s2.1 bufSize s2.2 text
    | none => s2
  if s3.2 ≠ 0 then (s3.1.write s3.2 32, s3.2 + 1) else s3

/-- The severity argument that `logv` passes to `prependInfo`,
`(flags & krLogNoLevel) ? NULL : krLogLevelNames[level][0]`: `some none` is the
null pointer and `none` a read beyond the table. -/
def severityArg (K : FlagValues) (level flags : Nat) : Option (Option CString) :=
  if flags &&& K.krLogNoLevel ≠ 0 then some none
  else (krLogLevelNames[level]?).map fun name => name.1

/-- The call of `prependInfo` in `logv`, on the stack array `statBuf`. -/
def prependOnStack (K : FlagValues) (L : Logger) (env : Env) (pfx severity : Option CString) :
    Buffer × Nat :=
  prependInfo K L env.stamp ⟨env.stack, []⟩ LOGGER_SPRINTF_BUF_SIZE pfx severity

/-- How `logv` ends before it calls `logString`. -/
inductive Prepared where
  /-- The behaviour is undefined: a read beyond `krLogLevelNames`, or a signed
  overflow. -/
  | undefined
  /-- The call returned without logging (`vsnprintf` failed). -/
  | dropped
  /-- The call `logString(level, buf, flags, len)` is made. -/
  | dispatch (buf : Buffer) (len : Nat)

/-- The part of `Logger::logv` before the call of `logString`. The allocation
`new char[bufSize]` does not return a null pointer. A store outside an array is
recorded in `written` and the computation goes on, whereas C leaves the
behaviour undefined from there: the outcome is what the code does when no
store leaves `statBuf`, which is so when `prependInfo` leaves the two reserved
bytes free; the theorems about `logv` below assume that. -/
def logvPrepare (K : FlagValues) (L : Logger) (env : Env) (pfx : Option CString)
    (level flags : Nat) (rendered : CString) : Prepared :=
  match severityArg K level flags with
  | none => .undefined
  | some severity =>
    let p := prependOnStack K L env pfx severity
    let bytesLogged := p.2
    let sprintfSpace : Int := toInt32 (sizeSub (LOGGER_SPRINTF_BUF_SIZE - 2) bytesLogged)
    let r := vsnprintf p.1 bytesLogged (toSizeT sprintfSpace) rendered
    let sprintfRv := r.2
    if sprintfRv < 0 then .dropped
    else if sprintfRv ≥ sprintfSpace then
      if sprintfRv = INT_MAX then .undefined
      else
        let sprintfSpace : Int := sprintfRv + 1
        let buf := memcpy ⟨env.heap, []⟩ r.1.bytes bytesLogged
        let r2 := vsnprintf buf bytesLogged (toSizeT sprintfSpace) rendered
        let sprintfRv : Int := if r2.2 ≥ sprintfSpace then sprintfSpace - 1 else r2.2
        let bytesLogged := (bytesLogged + toSizeT sprintfRv) % SIZE_MOD
        .dispatch (r2.1.write bytesLogged 48) bytesLogged
    else
      let bytesLogged := (bytesLogged + toSizeT sprintfRv) % SIZE_MOD
      .dispatch (r.1.write bytesLogged 48) bytesLogged

/-- The method `Logger::logv`: the calls made to the backends, or `none` when
the behaviour is undefined. -/
def logv (K : FlagValues) (L : Logger) (env : Env) (pfx : Option CString)
    (level flags : Nat) (rendered : CString) : Option (List BackendCall) :=
  match logvPrepare K L env pfx level flags rendered with
  | .undefined => none
  | .dropped => some []
  | .dispatch buf len => some (logString K L level buf.bytes flags len)

/-- The method `Logger::log`. -/
def log (K : FlagValues) (L : Logger) (env : Env) (pfx : Option CString)
    (level flags : Nat) (rendered : CString) : Option (List BackendCall) :=
  logv K L env pfx level flags rendered

/-- The function `krLoggerLog`; an index beyond `logChannels` is undefined
behaviour. -/
def krLoggerLog (K : FlagValues) (L : Logger) (env : Env) (channel level : Nat)
    (rendered : CString) : Option (List BackendCall) :=
  match L.logChannels[channel]? with
  | none => none
  | some chan => logv K L env chan.display level chan.flags rendered

/-! ## Configuration from the `KRLOG` environment variable -/

/-- Modelled from the spec: the pair delimiters that `setupFromEnvVar` passes
to `parseNameValues` of `stringUtils.h` (not among the sources): space, `;`
and `:`. -/
def isPairDelim (c : Nat) : Bool := c == 32 || c == 59 || c == 58

/-- Modelled from the spec: the tokens of the configuration string, which are
its maximal runs of bytes other than the delimiters (`stringUtils.h` is not
among the sources; the spec gives the grammar `entry (sep entry)*`). -/
def tokenize : CString → CString → List CString
  | [], cur => if cur = [] then [] else [cur]
  | c :: rest, cur =>
    if isPairDelim c then
      (if cur = [] then tokenize rest [] else cur :: tokenize rest [])
    else tokenize rest (cur ++ [c])

/-- Modelled from the spec: an entry `name '=' value` split at its first `=`
(`stringUtils.h` is not among the sources). -/
def splitNameValue : CString → Option (CString × CString)
  | [] => none
  | c :: rest =>
    if c = 61 then some ([], rest)
    else (splitNameValue rest).map fun p => (c :: p.1, p.2)

/-- Modelled from the spec: the entries stored into the map one after the
other, a later entry overwriting an earlier one of the same name; a token
without `=` fails the parse with an exception (`stringUtils.h` is not among
the sources). -/
def parseTokens : List CString → StdMap CString → Except CString (StdMap CString)
  | [], config => .ok config
  | token :: rest, config =>
    match splitNameValue token with
    | none => .error (lit "missing value delimiter in token " ++ token)
    | some (name, value) => parseTokens rest (config.assign name value)

/-- Modelled from the spec: the function `parseNameValues(str, " ;:", '=',
config)` of `stringUtils.h`, which is not among the sources. -/
def parseNameValues (str : CString) (config : StdMap CString) :
    Except CString (StdMap CString) :=
  parseTokens (tokenize str []) config

/-- The local struct `ParamVal`: the string and its level number. -/
structure ParamVal where
  str : CString
  numVal : Nat
  deriving DecidableEq, Repr

/-- A call of `Logger::log` made by the logger itself. -/
structure LogRequest where
  pfx : Option CString
  level : Nat
  flags : Nat
  rendered : CString
  deriving DecidableEq, Repr

/-- The loop that verifies the level names: the map with `numVal` filled in, or
the text of the exception thrown at the first value that is not recognised. -/
def verifyLevels : StdMap CString → Except CString (StdMap ParamVal)
  | [] => .ok []
  | (name, value) :: rest =>
    let level := krLogLevelStrToNum value
    if level = UNSIGNED_MINUS_ONE then
      .error (lit "can't recognize log level name '" ++ value ++ lit "'")
    else
      match verifyLevels rest with
      | .error what => .error what
      | .ok verified => .ok ((name, ⟨value, level⟩) :: verified)

/-- The diagnostic of the `catch` block. -/
def parseErrorRequest (what : CString) : LogRequest :=
  { pfx := some (lit "LOGGER"), level := krLogLevelError, flags := 0,
    rendered := lit "Error parsing KRLOG env variable: " ++ what ++
      lit ". Settings from that variable will not be applied" }

/-- The diagnostic for a name that is not a channel id. -/
def unknownChannelRequest (name : CString) : LogRequest :=
  { pfx := some (lit "LOGGER"), level := krLogLevelError, flags := 0,
    rendered := lit "Unknown channel in KRLOG env variable: " ++ name ++ lit ". Ignoring" }

/-- The loop over `logChannels` from index `n` on: the channels afterwards and
the map `chans`, in which a channel is its index in `logChannels`. -/
def channelLoop (allLevels : Nat) :
    List KarereLogChannel → Nat → StdMap Nat → List KarereLogChannel × StdMap Nat
  | [], _, chans => ([], chans)
  | chan :: rest, n, chans =>
    let chan1 : KarereLogChannel :=
      if allLevels ≠ UNSIGNED_MINUS_ONE then { chan with logLevel := allLevels } else chan
    let r := channelLoop allLevels rest (n + 1) (chans.assign chan1.id n)
    (chan1 :: r.1, r.2)

/-- The assignment `logChannels[n].logLevel = level`. -/
def setLogLevel : List KarereLogChannel → Nat → Nat → List KarereLogChannel
  | [], _, _ => []
  | chan :: rest, 0, level => { chan with logLevel := level } :: rest
  | chan :: rest, n + 1, level => chan :: setLogLevel rest n level

/-- How `setupFromEnvVar` ends. -/
inductive SetupOutcome where
  /-- It returned: the channels afterwards and the calls of `log` made. -/
  | done (logChannels : List KarereLogChannel) (requests : List LogRequest)
  /-- It dereferenced `chans.end()`, which is undefined behaviour: the
  channels and the calls of `log` up to that point. -/
  | undefined (logChannels : List KarereLogChannel) (requests : List LogRequest)
  deriving DecidableEq, Repr

/-- The loop over the entries of `config`. -/
def itemLoop (chans : StdMap Nat) :
    StdMap ParamVal → List KarereLogChannel → List LogRequest → SetupOutcome
  | [], logChannels, requests => .done logChannels requests
  | (name, value) :: rest, logChannels, requests =>
    match chans.find name with
    | none => .undefined logChannels (requests ++ [unknownChannelRequest name])
    | some n => itemLoop chans rest (setLogLevel logChannels n value.numVal) requests

/-- The method `Logger::setupFromEnvVar`, where `strConfig` is the result of
`getenv("KRLOG")`. -/
def setupFromEnvVar (L : Logger) (strConfig : Option CString) : SetupOutcome :=
  match strConfig with
  | none => .done L.logChannels []
  | some str =>
    match parseNameValues str [] with
    | .error what => .done L.logChannels [parseErrorRequest what]
    | .ok parsed =>
      match verifyLevels parsed with
      | .error what => .done L.logChannels [parseErrorRequest what]
      | .ok config =>
        let allLevels : Nat :=
          match config.find (lit "all") with
          | some value => value.numVal
          | none => UNSIGNED_MINUS_ONE
        let config := config.erase (lit "all")
        let r := channelLoop allLevels L.logChannels 0 []
        itemLoop r.2 config r.1 []

/-! ## Sample inputs -/

/-- A logger with a console backend, no other backend, no global flag, and one
channel whose threshold is `error`. -/
def consoleOnlyLogger : Logger :=
  { mTimeFmt := lit "%H:%M", mFlags := 0, mConsoleLogger := some ⟨1⟩, mFileLogger := none,
    mUserLoggers := [],
    logChannels := [⟨lit "default", some (lit "DEF"), krLogLevelError, 0⟩] }

/-- A call at which the timestamp reads `12:00`, with zeroed memory. -/
def noonEnv : Env := ⟨lit "12:00", fun _ => 0, fun _ => 0⟩

/-- A logger with a console backend and a file backend, no user backend, no
global flag and no channel. -/
def bothSinksLogger : Logger :=
  { mTimeFmt := lit "%H:%M", mFlags := 0, mConsoleLogger := some ⟨1⟩,
    mFileLogger := some ⟨2, 0, lit "app.log", 1024⟩, mUserLoggers := [], logChannels := [] }

/-- The logger after the calls `addUserLogger(tag, logger)` for the pairs of
`regs`, made in the order of the list. -/
def registerAll (L : Logger) (regs : List (CString × ILoggerBackend)) : Logger :=
  regs.foldl (fun acc r => addUserLogger acc r.1 r.2) L

/-- A logger with a file backend, no other backend, no global flag and no
channel. -/
def fileOnlyLogger : Logger :=
  { mTimeFmt := lit "%H:%M", mFlags := 0, mConsoleLogger := none,
    mFileLogger := some ⟨2, 0, lit "app.log", 1024⟩, mUserLoggers := [], logChannels := [] }

/-- What a C string is when letter case is ignored: its bytes up to the first
zero, each letter in lower case. -/
def caseFold : CString → CString
  | [] => []
  | c :: rest => if c = 0 then [] else tolower c :: caseFold rest

/-- Two C strings are equal ignoring ASCII case. -/
def EqIgnoringCase (a b : CString) : Prop := caseFold a = caseFold b

/-- A string matches a row of the table: it equals the long name or, when the
row has one, the short code, ignoring ASCII case. -/
def MatchesRow (s : CString) (name : KarereLogLevelName) : Prop :=
  EqIgnoringCase s name.2 ∨ ∃ short, name.1 = some short ∧ EqIgnoringCase s short

/-- A logger without backends whose channels are `default`, `mychannel` and
`rtc`, with the thresholds `info`, `info` and `error`. -/
def threeChannelLogger : Logger :=
  { mTimeFmt := lit "%H:%M", mFlags := 0, mConsoleLogger := none, mFileLogger := none,
    mUserLoggers := [],
    logChannels :=
      [ ⟨lit "default", some (lit "DEF"), krLogLevelInfo, 0⟩,
        ⟨lit "mychannel", some (lit "MY"), krLogLevelInfo, 0⟩,
        ⟨lit "rtc", some (lit "RTC"), krLogLevelError, 0⟩ ] }

/-! ## The prefix in the words of the specification -/

/-- The bytes of a C string up to its terminator. -/
def cText : CString → List Nat
  | [] => []
  | c :: rest => if c = 0 then [] else c :: cText rest

/-- One part of the prefix as the specification words it: the text between
`[` and `]`, and nothing when the part is absent. -/
def bracketPart : Option (List Nat) → List Nat
  | none => []
  | some text => 91 :: (text ++ [93])

/-- The prefix as the specification words it: the timestamp part, the severity
part and the channel part, each when present, then one space when at least one
part is there. -/
def prefixAsSpecified (stamp severity pfx : Option (List Nat)) : List Nat :=
  if bracketPart stamp ++ bracketPart severity ++ bracketPart pfx = [] then []
  else bracketPart stamp ++ bracketPart severity ++ bracketPart pfx ++ [32]

/-- A buffer and a count render a text: the count is the length of the text and
the first bytes of the buffer are the text. -/
def Renders (s : Buffer × Nat) (text : List Nat) : Prop :=
  s.2 = text.length ∧ s.1.content text.length = text

/-- The logger `consoleOnlyLogger` with timestamps suppressed globally. -/
def noStampLogger : Logger :=
  { consoleOnlyLogger with mFlags := exampleFlags.krLogNoTimestamps }

/-- The logger `consoleOnlyLogger` with the level tag suppressed globally. -/
def noLevelLogger : Logger :=
  { consoleOnlyLogger with mFlags := exampleFlags.krLogNoLevel }

/-- The logger `bothSinksLogger` after `addUserLogger("b", 10)` and
`addUserLogger("a", 11)`. -/
def twoUsersLogger : Logger :=
  addUserLogger (addUserLogger bothSinksLogger (lit "b") ⟨10⟩) (lit "a") ⟨11⟩

/-! ## Buffers -/

theorem Buffer.write_bytes (buf : Buffer) (i v j : Nat) :
    (buf.write i v).bytes j = if j = i then v else buf.bytes j := rfl

theorem Buffer.writeList_bytes (data : List Nat) :
    ∀ (buf : Buffer) (off j : Nat),
      (buf.writeList off data).bytes j =
        if off ≤ j ∧ j < off + data.length then data.getD (j - off) 0 else buf.bytes j := by
  induction data with
  | nil =>
    intro buf off j
    have h : ¬ (off ≤ j ∧ j < off + ([] : List Nat).length) := by
      simp only [List.length_nil]; omega
    rw [if_neg h, Buffer.writeList]
  | cons c rest ih =>
    intro buf off j
    rw [Buffer.writeList, ih, Buffer.write_bytes]
    by_cases h1 : j = off
    · subst h1; simp
    · by_cases h2 : off + 1 ≤ j ∧ j < off + 1 + rest.length
      · have h3 : off ≤ j ∧ j < off + (c :: rest).length := by
          simp only [List.length_cons]; omega
        rw [if_pos h2, if_pos h3]
        have h4 : j - off = (j - (off + 1)) + 1 := by omega
        rw [h4, List.getD_cons_succ]
      · have h3 : ¬ (off ≤ j ∧ j < off + (c :: rest).length) := by
          simp only [List.length_cons]; omega
        rw [if_neg h2, if_neg h3, if_neg h1]

theorem Buffer.content_add (buf : Buffer) (n m : Nat) :
    buf.content (n + m) = buf.content n ++ (List.range m).map fun i => buf.bytes (n + i) := by
  simp [Buffer.content, List.range_add, List.map_map, Function.comp_def]

theorem Buffer.content_congr (a b : Buffer) (n : Nat) (h : ∀ j, j < n → a.bytes j = b.bytes j) :
    a.content n = b.content n := by
  unfold Buffer.content
  apply List.map_congr_left
  intro j hj
  exact h j (List.mem_range.mp hj)

theorem map_range_eq (data : List Nat) (f : Nat → Nat)
    (h : ∀ i, i < data.length → f i = data.getD i 0) :
    (List.range data.length).map f = data := by
  apply List.ext_getElem
  · simp
  · intro i h1 h2
    simp at h1
    simp [h i h1, List.getD_eq_getElem, h1]



/-! ## Formatting -/

theorem vsnprintf_snd (buf : Buffer) (off size : Nat) (rendered : CString)
    (hlen : (rendered.length : Int) ≤ INT_MAX) :
    (vsnprintf buf off size rendered).2 = (rendered.length : Int) := by
  unfold vsnprintf
  rw [if_neg (by omega)]
  split <;> rfl

theorem vsnprintf_below (buf : Buffer) (off size : Nat) (rendered : CString) (j : Nat)
    (h : j < off) : (vsnprintf buf off size rendered).1.bytes j = buf.bytes j := by
  unfold vsnprintf
  split
  · rfl
  · split
    · rfl
    · simp only [Buffer.write_bytes, Buffer.writeList_bytes]
      rw [if_neg (by omega), if_neg (by omega)]

theorem vsnprintf_whole (buf : Buffer) (off size : Nat) (rendered : CString) (i : Nat)
    (hlen : (rendered.length : Int) ≤ INT_MAX) (hsize : rendered.length < size)
    (hi : i < rendered.length) :
    (vsnprintf buf off size rendered).1.bytes (off + i) = rendered.getD i 0 := by
  unfold vsnprintf
  rw [if_neg (by omega), if_neg (by omega)]
  have ht : rendered.take (size - 1) = rendered := List.take_of_length_le (by omega)
  simp only [Buffer.write_bytes, Buffer.writeList_bytes, ht]
  rw [if_neg (by omega), if_pos (by omega)]
  congr 1
  omega

theorem toInt32_small (z : Int) (h0 : -2 ^ 31 ≤ z) (h1 : z < 2 ^ 31) : toInt32 z = z := by
  unfold toInt32
  omega

theorem toSizeT_natCast (n : Nat) (h : n < 2 ^ 64) : toSizeT (n : Int) = n := by
  unfold toSizeT
  omega

theorem sizeSub_small (a b : Nat) (hb : b ≤ a) (ha : a < 2 ^ 64) : sizeSub a b = a - b := by
  unfold sizeSub SIZE_MOD
  omega

/-- The line that `logv` hands to `logString` when the prefix leaves room in
the stack array: its length, its bytes, and the byte stored after them. -/
theorem logvPrepare_fits (K : FlagValues) (L : Logger) (env : Env) (pfx : Option CString)
    (level flags : Nat) (rendered : CString) (severity : Option CString)
    (hsev : severityArg K level flags = some severity)
    (hfit : (prependOnStack K L env pfx severity).2
      ≤ LOGGER_SPRINTF_BUF_SIZE - 2)
    (hlen : (rendered.length : Int) < INT_MAX) :
    ∃ buf : Buffer,
      logvPrepare K L env pfx level flags rendered =
        .dispatch buf
          ((prependOnStack K L env pfx severity).2
            + rendered.length) ∧
      buf.content
          ((prependOnStack K L env pfx severity).2
            + rendered.length) =
        (prependOnStack K L env pfx severity).1.content
          (prependOnStack K L env pfx severity).2
          ++ rendered ∧
      buf.bytes
          ((prependOnStack K L env pfx severity).2
            + rendered.length) = 48 := by
  unfold logvPrepare
  rw [hsev]
  dsimp only
  generalize prependOnStack K L env pfx severity = p
    at hfit ⊢
  obtain ⟨pb, n⟩ := p
  simp only [LOGGER_SPRINTF_BUF_SIZE] at hfit
  simp only [INT_MAX] at hlen
  have hlen' : (rendered.length : Int) ≤ INT_MAX := by simp only [INT_MAX]; omega
  have hl64 : rendered.length < 2 ^ 64 := by omega
  have hspace : toInt32 (sizeSub (LOGGER_SPRINTF_BUF_SIZE - 2) n) = ((10238 - n : Nat) : Int) := by
    simp only [LOGGER_SPRINTF_BUF_SIZE]
    rw [sizeSub_small _ _ (by omega) (by norm_num), toInt32_small _ (by omega) (by omega)]
  simp only [hspace, vsnprintf_snd _ _ _ _ hlen']
  rw [if_neg (by omega)]
  have hmod : (n + rendered.length) % SIZE_MOD = n + rendered.length := by
    unfold SIZE_MOD; omega
  by_cases hbig : (rendered.length : Int) ≥ ((10238 - n : Nat) : Int)
  · rw [if_pos hbig, if_neg (by simp only [INT_MAX]; omega)]
    have h1 : toSizeT ((rendered.length : Int) + 1) = rendered.length + 1 := by
      have := toSizeT_natCast (rendered.length + 1) (by omega)
      simpa using this
    simp only [h1, vsnprintf_snd _ _ _ _ hlen']
    rw [if_neg (by omega)]
    simp only [toSizeT_natCast _ hl64, hmod]
    refine ⟨_, rfl, ?_, ?_⟩
    swap
    · rw [Buffer.write_bytes, if_pos rfl]
    rw [Buffer.content_add]
    refine congrArg₂ (fun a b : List Nat => a ++ b) ?_ ?_
    · apply Buffer.content_congr
      intro j hj
      rw [Buffer.write_bytes, if_neg (by omega), vsnprintf_below _ _ _ _ _ hj]
      simp only [memcpy, if_pos hj]
      rw [vsnprintf_below _ _ _ _ _ hj]
    · apply map_range_eq
      intro i hi
      rw [Buffer.write_bytes, if_neg (by omega),
        vsnprintf_whole _ _ _ _ _ hlen' (by omega) hi]
  · rw [if_neg hbig]
    have hroom : rendered.length < 10238 - n := by omega
    simp only [toSizeT_natCast _ hl64, hmod]
    refine ⟨_, rfl, ?_, ?_⟩
    swap
    · rw [Buffer.write_bytes, if_pos rfl]
    rw [Buffer.content_add]
    refine congrArg₂ (fun a b : List Nat => a ++ b) ?_ ?_
    · apply Buffer.content_congr
      intro j hj
      rw [Buffer.write_bytes, if_neg (by omega), vsnprintf_below _ _ _ _ _ hj]
    · apply map_range_eq
      intro i hi
      rw [Buffer.write_bytes, if_neg (by omega),
        vsnprintf_whole _ _ _ _ _ hlen' (by rw [toSizeT_natCast _ (by omega)]; exact hroom) hi]



theorem severityArg_of_le (K : FlagValues) (level flags : Nat) (h : level ≤ krLogLevelLast) :
    ∃ severity, severityArg K level flags = some severity := by
  unfold severityArg
  split
  · exact ⟨_, rfl⟩
  · have h7 : level < krLogLevelNames.length := by
      simp only [krLogLevelLast, krLogLevelDebugVerbose] at h
      simp only [krLogLevelNames, List.length_cons, List.length_nil]
      omega
    rw [List.getElem?_eq_getElem h7]
    exact ⟨_, rfl⟩

theorem setLogLevel_getElem? (chans : List KarereLogChannel) :
    ∀ (n level : Nat) (chan : KarereLogChannel), chans[n]? = some chan →
      (setLogLevel chans n level)[n]? = some { chan with logLevel := level } := by
  induction chans with
  | nil => intro n level chan h; simp at h
  | cons c rest ih =>
    intro n level chan h
    cases n with
    | zero =>
      simp only [List.getElem?_cons_zero, Option.some.injEq] at h
      subst h
      simp [setLogLevel]
    | succ m =>
      simp only [List.getElem?_cons_succ] at h
      simpa [setLogLevel] using ih m level chan h

/-- C1 (amended): `krLoggerLog` does not compare the level with the threshold of
the channel. For every channel whose prefix leaves the two reserved bytes of
the stack array free, every valid level and every message that `vsnprintf` can
render, the whole line (prefix and message) is formatted and handed to
`logString` whatever the threshold of the channel is, and replacing the
threshold by any other value leaves the calls made to the backends unchanged. -/
theorem krLoggerLog_ignores_threshold (K : FlagValues) (L : Logger) (env : Env)
    (channel level threshold : Nat) (rendered : CString) (chan : KarereLogChannel)
    (severity : Option CString)
    (hchan : L.logChannels[channel]? = some chan)
    (hsev : severityArg K level chan.flags = some severity)
    (hfit : (prependOnStack K L env chan.display severity).2 ≤ LOGGER_SPRINTF_BUF_SIZE - 2)
    (hlen : (rendered.length : Int) < INT_MAX) :
    (∃ buf : Buffer,
      krLoggerLog K L env channel level rendered =
        some (logString K L level buf.bytes chan.flags
          ((prependOnStack K L env chan.display severity).2 + rendered.length)) ∧
      buf.content ((prependOnStack K L env chan.display severity).2 + rendered.length) =
        (prependOnStack K L env chan.display severity).1.content
          (prependOnStack K L env chan.display severity).2 ++ rendered) ∧
    krLoggerLog K { L with logChannels := setLogLevel L.logChannels channel threshold } env
        channel level rendered =
      krLoggerLog K L env channel level rendered := by
  constructor
  · obtain ⟨buf, hd, hc, _⟩ :=
      logvPrepare_fits K L env chan.display level chan.flags rendered severity hsev hfit hlen
    refine ⟨buf, ?_, hc⟩
    simp only [krLoggerLog, hchan, logv, hd]
  · simp only [krLoggerLog, hchan, setLogLevel_getElem? _ _ threshold _ hchan]
    rfl

theorem krLoggerLog_ignores_threshold_witness :
    consoleOnlyLogger.logChannels[0]? = some ⟨lit "default", some (lit "DEF"), krLogLevelError, 0⟩ ∧
    severityArg exampleFlags krLogLevelDebug 0 = some (some (lit "dbg")) ∧
    (prependOnStack exampleFlags consoleOnlyLogger noonEnv (some (lit "DEF"))
      (some (lit "dbg"))).2 ≤ LOGGER_SPRINTF_BUF_SIZE - 2 ∧
    ((∃ buf : Buffer,
      krLoggerLog exampleFlags consoleOnlyLogger noonEnv 0 krLogLevelDebug (lit "x") =
        some (logString exampleFlags consoleOnlyLogger krLogLevelDebug buf.bytes 0
          ((prependOnStack exampleFlags consoleOnlyLogger noonEnv (some (lit "DEF"))
            (some (lit "dbg"))).2 + (lit "x").length)) ∧
      buf.content
          ((prependOnStack exampleFlags consoleOnlyLogger noonEnv (some (lit "DEF"))
            (some (lit "dbg"))).2 + (lit "x").length) =
        (prependOnStack exampleFlags consoleOnlyLogger noonEnv (some (lit "DEF"))
            (some (lit "dbg"))).1.content
          (prependOnStack exampleFlags consoleOnlyLogger noonEnv (some (lit "DEF"))
            (some (lit "dbg"))).2 ++ lit "x") ∧
    krLoggerLog exampleFlags
        { consoleOnlyLogger with
          logChannels := setLogLevel consoleOnlyLogger.logChannels 0 krLogLevelOff }
        noonEnv 0 krLogLevelDebug (lit "x") =
      krLoggerLog exampleFlags consoleOnlyLogger noonEnv 0 krLogLevelDebug (lit "x")) :=
  ⟨by decide, by decide, by decide,
    krLoggerLog_ignores_threshold exampleFlags consoleOnlyLogger noonEnv 0 krLogLevelDebug
      krLogLevelOff (lit "x") ⟨lit "default", some (lit "DEF"), krLogLevelError, 0⟩
      (some (lit "dbg")) (by decide) (by decide) (by decide) (by decide)⟩

/-- C1 (as stated) fails: on a channel whose threshold is `error`, a line of
level `debug`, which is numerically greater, submitted through `krLoggerLog`
is delivered to the console backend. -/
theorem krLoggerLog_delivers_above_threshold :
    (consoleOnlyLogger.logChannels[0]?).map (fun chan => chan.logLevel) = some krLogLevelError ∧
    krLogLevelError < krLogLevelDebug ∧
    (krLoggerLog exampleFlags consoleOnlyLogger noonEnv 0 krLogLevelDebug (lit "x")).map
        (fun calls => calls.map BackendCall.sink) = some [Sink.console ⟨1⟩] := by
  decide


/-- C3: when the prefix that `prependInfo` rendered leaves the two reserved
bytes of the stack array free, `logv` hands to `logString` a buffer and a
length such that the length is the prefix length plus the length of the
rendered message, and the first `length` bytes of the buffer are the prefix
followed by the whole message, for a message of any length that `vsnprintf`
can report (below `INT_MAX`), in particular one longer than the stack array. -/
theorem logv_hands_over_complete_line (K : FlagValues) (L : Logger) (env : Env)
    (pfx : Option CString) (level flags : Nat) (rendered : CString) (severity : Option CString)
    (hsev : severityArg K level flags = some severity)
    (hfit : (prependOnStack K L env pfx severity).2 ≤ LOGGER_SPRINTF_BUF_SIZE - 2)
    (hlen : (rendered.length : Int) < INT_MAX) :
    ∃ buf : Buffer,
      logvPrepare K L env pfx level flags rendered =
        .dispatch buf ((prependOnStack K L env pfx severity).2 + rendered.length) ∧
      logv K L env pfx level flags rendered =
        some (logString K L level buf.bytes flags
          ((prependOnStack K L env pfx severity).2 + rendered.length)) ∧
      buf.content ((prependOnStack K L env pfx severity).2 + rendered.length) =
        (prependOnStack K L env pfx severity).1.content (prependOnStack K L env pfx severity).2
          ++ rendered := by
  obtain ⟨buf, hd, hc, _⟩ := logvPrepare_fits K L env pfx level flags rendered severity hsev hfit hlen
  refine ⟨buf, hd, ?_, hc⟩
  simp only [logv, hd]

theorem logv_hands_over_complete_line_witness :
    severityArg exampleFlags krLogLevelError 0 = some (some (lit "ERR")) ∧
    (prependOnStack exampleFlags consoleOnlyLogger noonEnv (some (lit "DEF")) (some (lit "ERR"))).2
      ≤ LOGGER_SPRINTF_BUF_SIZE - 2 ∧
    (((List.replicate 20000 120).length : Nat) : Int) < INT_MAX ∧
    ∃ buf : Buffer,
      logvPrepare exampleFlags consoleOnlyLogger noonEnv (some (lit "DEF")) krLogLevelError 0
          (List.replicate 20000 120) =
        .dispatch buf
          ((prependOnStack exampleFlags consoleOnlyLogger noonEnv (some (lit "DEF"))
            (some (lit "ERR"))).2 + (List.replicate 20000 120).length) ∧
      logv exampleFlags consoleOnlyLogger noonEnv (some (lit "DEF")) krLogLevelError 0
          (List.replicate 20000 120) =
        some (logString exampleFlags consoleOnlyLogger krLogLevelError buf.bytes 0
          ((prependOnStack exampleFlags consoleOnlyLogger noonEnv (some (lit "DEF"))
            (some (lit "ERR"))).2 + (List.replicate 20000 120).length)) ∧
      buf.content
          ((prependOnStack exampleFlags consoleOnlyLogger noonEnv (some (lit "DEF"))
            (some (lit "ERR"))).2 + (List.replicate 20000 120).length) =
        (prependOnStack exampleFlags consoleOnlyLogger noonEnv (some (lit "DEF"))
            (some (lit "ERR"))).1.content
          (prependOnStack exampleFlags consoleOnlyLogger noonEnv (some (lit "DEF"))
            (some (lit "ERR"))).2 ++ List.replicate 20000 120 :=
  ⟨by decide, by decide, by rw [List.length_replicate]; decide,
    logv_hands_over_complete_line exampleFlags consoleOnlyLogger noonEnv (some (lit "DEF"))
      krLogLevelError 0 (List.replicate 20000 120) (some (lit "ERR")) (by decide) (by decide)
      (by rw [List.length_replicate]; decide)⟩

/-- C6 (the code diverges): for the message `hi` on a channel with prefix `DEF`
at level `error`, `logv` hands to `logString` a buffer of 20 rendered bytes
whose byte at offset 20 is the character `'0'` (48), not the terminator 0. -/
theorem logv_stores_digit_after_line :
    ∃ buf : Buffer,
      logvPrepare exampleFlags consoleOnlyLogger noonEnv (some (lit "DEF")) krLogLevelError 0
          (lit "hi") = .dispatch buf 20 ∧
      buf.content 20 = lit "[12:00][ERR][DEF] hi" ∧
      buf.bytes 20 = 48 ∧ buf.bytes 20 ≠ 0 := by
  obtain ⟨buf, hd, hc, hb⟩ :=
    logvPrepare_fits exampleFlags consoleOnlyLogger noonEnv (some (lit "DEF")) krLogLevelError 0
      (lit "hi") (some (lit "ERR")) (by decide) (by decide) (by decide)
  have hn : (prependOnStack exampleFlags consoleOnlyLogger noonEnv (some (lit "DEF"))
      (some (lit "ERR"))).2 + (lit "hi").length = 20 := by decide
  rw [hn] at hd hc hb
  refine ⟨buf, hd, ?_, hb, by rw [hb]; decide⟩
  rw [hc]
  decide


/-! ## The ordered map -/

theorem strLt_irrefl : ∀ a : CString, strLt a a = false := by
  intro a
  induction a with
  | nil => rfl
  | cons x xs ih => simp [strLt, ih]

theorem strLt_trans : ∀ a b c : CString, strLt a b = true → strLt b c = true →
    strLt a c = true := by
  intro a
  induction a with
  | nil =>
    intro b c hab hbc
    cases b with
    | nil => simp [strLt] at hab
    | cons y ys =>
      cases c with
      | nil => simp [strLt] at hbc
      | cons z zs => simp [strLt]
  | cons x xs ih =>
    intro b c hab hbc
    cases b with
    | nil => simp [strLt] at hab
    | cons y ys =>
      cases c with
      | nil => simp [strLt] at hbc
      | cons z zs =>
        simp only [strLt] at hab hbc ⊢
        by_cases hxy : x < y
        · by_cases hyz : y < z
          · rw [if_pos (by omega)]
          · rw [if_neg hyz] at hbc
            by_cases hzy : z < y
            · rw [if_pos hzy] at hbc; cases hbc
            · rw [if_pos (by omega)]
        · rw [if_neg hxy] at hab
          by_cases hyx : y < x
          · rw [if_pos hyx] at hab; cases hab
          · rw [if_neg hyx] at hab
            have hxy' : x = y := by omega
            subst hxy'
            by_cases hxz : x < z
            · rw [if_pos hxz]
            · rw [if_neg hxz] at hbc ⊢
              by_cases hzx : z < x
              · rw [if_pos hzx] at hbc; cases hbc
              · rw [if_neg hzx] at hbc ⊢
                exact ih ys zs hab hbc

theorem strLt_total : ∀ a b : CString, strLt a b = false → strLt b a = false → a = b := by
  intro a
  induction a with
  | nil =>
    intro b h1 h2
    cases b with
    | nil => rfl
    | cons y ys => simp [strLt] at h1
  | cons x xs ih =>
    intro b h1 h2
    cases b with
    | nil => simp [strLt] at h2
    | cons y ys =>
      simp only [strLt] at h1 h2
      by_cases hxy : x < y
      · rw [if_pos hxy] at h1; cases h1
      · rw [if_neg hxy] at h1
        by_cases hyx : y < x
        · rw [if_pos hyx] at h2; cases h2
        · rw [if_neg hyx] at h1 h2
          rw [if_neg hxy] at h2
          have hxy' : x = y := by omega
          rw [hxy', ih ys h1 h2]

theorem strLt_ne (a b : CString) (h : strLt a b = true) : a ≠ b := by
  intro hab
  rw [hab, strLt_irrefl] at h
  cases h

theorem StdMap.find_assign {V : Type} (m : StdMap V) (k : CString) (v : V) (k2 : CString) :
    (m.assign k v).find k2 = if k2 = k then some v else m.find k2 := by
  induction m with
  | nil =>
    simp only [StdMap.assign, StdMap.find]
    by_cases h : k2 = k
    · rw [if_pos h, if_pos h.symm]
    · rw [if_neg h, if_neg (fun h2 => h h2.symm)]
  | cons e rest ih =>
    obtain ⟨k1, v1⟩ := e
    simp only [StdMap.assign]
    by_cases h1 : strLt k k1 = true
    · rw [if_pos h1]
      by_cases h : k2 = k
      · rw [if_pos h]
        simp only [StdMap.find]
        rw [if_pos h.symm]
      · rw [if_neg h]
        rw [StdMap.find, if_neg (fun h2 => h h2.symm)]
    · rw [if_neg h1]
      by_cases h2 : strLt k1 k = true
      · rw [if_pos h2]
        simp only [StdMap.find, ih]
        by_cases h : k1 = k2
        · rw [if_pos h, if_pos h, if_neg (by rw [← h]; exact strLt_ne _ _ h2)]
        · rw [if_neg h, if_neg h]
      · rw [if_neg h2]
        have hk : k = k1 :=
          strLt_total k k1 (by simpa using h1) (by simpa using h2)
        subst hk
        simp only [StdMap.find]
        by_cases h : k2 = k
        · rw [if_pos h, if_pos h.symm]
        · rw [if_neg h, if_neg (fun h2 => h h2.symm), if_neg (fun h2 => h h2.symm)]

theorem StdMap.mem_assign {V : Type} (m : StdMap V) (k : CString) (v : V) (e : CString × V)
    (h : e ∈ m.assign k v) : e = (k, v) ∨ e ∈ m := by
  induction m with
  | nil =>
    simp only [StdMap.assign, List.mem_singleton] at h
    exact Or.inl h
  | cons e1 rest ih =>
    obtain ⟨k1, v1⟩ := e1
    simp only [StdMap.assign] at h
    by_cases h1 : strLt k k1 = true
    · rw [if_pos h1] at h
      rcases List.mem_cons.mp h with h | h
      · exact Or.inl h
      · exact Or.inr h
    · rw [if_neg h1] at h
      by_cases h2 : strLt k1 k = true
      · rw [if_pos h2] at h
        rcases List.mem_cons.mp h with h | h
        · exact Or.inr (by rw [h]; exact List.mem_cons_self _ _)
        · rcases ih h with h | h
          · exact Or.inl h
          · exact Or.inr (List.mem_cons_of_mem _ h)
      · rw [if_neg h2] at h
        have hk : k = k1 :=
          strLt_total k k1 (by simpa using h1) (by simpa using h2)
        subst hk
        rcases List.mem_cons.mp h with h | h
        · exact Or.inl h
        · exact Or.inr (List.mem_cons_of_mem _ h)

theorem StdMap.assign_ordered {V : Type} (m : StdMap V) (k : CString) (v : V)
    (hm : m.Ordered) : (m.assign k v).Ordered := by
  induction m with
  | nil => simp [StdMap.assign, StdMap.Ordered]
  | cons e1 rest ih =>
    obtain ⟨k1, v1⟩ := e1
    unfold StdMap.Ordered at hm ⊢
    rw [List.pairwise_cons] at hm
    simp only [StdMap.assign]
    by_cases h1 : strLt k k1 = true
    · rw [if_pos h1, List.pairwise_cons]
      refine ⟨?_, List.pairwise_cons.mpr hm⟩
      intro e he
      rcases List.mem_cons.mp he with he | he
      · rw [he]; exact h1
      · exact strLt_trans _ _ _ h1 (hm.1 e he)
    · rw [if_neg h1]
      by_cases h2 : strLt k1 k = true
      · rw [if_pos h2, List.pairwise_cons]
        refine ⟨?_, ih hm.2⟩
        intro e he
        rcases StdMap.mem_assign rest k v e he with he | he
        · rw [he]; exact h2
        · exact hm.1 e he
      · rw [if_neg h2, List.pairwise_cons]
        exact ⟨hm.1, hm.2⟩

theorem StdMap.find_eq_some_of_mem {V : Type} (m : StdMap V) (hm : m.Ordered) (k : CString)
    (v : V) (h : (k, v) ∈ m) : m.find k = some v := by
  induction m with
  | nil => cases h
  | cons e1 rest ih =>
    obtain ⟨k1, v1⟩ := e1
    unfold StdMap.Ordered at hm
    rw [List.pairwise_cons] at hm
    simp only [StdMap.find]
    rcases List.mem_cons.mp h with h | h
    · cases h
      rw [if_pos rfl]
    · rw [if_neg (strLt_ne _ _ (hm.1 _ h)), ih hm.2 h]

theorem StdMap.mem_of_find_eq_some {V : Type} (m : StdMap V) (k : CString) (v : V)
    (h : m.find k = some v) : (k, v) ∈ m := by
  induction m with
  | nil => simp [StdMap.find] at h
  | cons e1 rest ih =>
    obtain ⟨k1, v1⟩ := e1
    simp only [StdMap.find] at h
    by_cases hk : k1 = k
    · rw [if_pos hk] at h
      cases h
      rw [hk]
      exact List.mem_cons_self _ _
    · rw [if_neg hk] at h
      exact List.mem_cons_of_mem _ (ih h)


/-! ## Fan-out -/

theorem registerAll_append (L : Logger) (regs : List (CString × ILoggerBackend))
    (r : CString × ILoggerBackend) :
    registerAll L (regs ++ [r]) = addUserLogger (registerAll L regs) r.1 r.2 := by
  simp [registerAll, List.foldl_append]

theorem registerAll_keeps (L : Logger) (regs : List (CString × ILoggerBackend)) :
    (registerAll L regs).mFlags = L.mFlags ∧
    (registerAll L regs).mConsoleLogger = L.mConsoleLogger ∧
    (registerAll L regs).mFileLogger = L.mFileLogger := by
  induction regs using List.reverseRecOn with
  | nil => exact ⟨rfl, rfl, rfl⟩
  | append_singleton regs r ih =>
    rw [registerAll_append]
    exact ih

theorem registerAll_ordered (L : Logger) (regs : List (CString × ILoggerBackend))
    (h : L.mUserLoggers.Ordered) : (registerAll L regs).mUserLoggers.Ordered := by
  induction regs using List.reverseRecOn with
  | nil => exact h
  | append_singleton regs r ih =>
    rw [registerAll_append]
    exact StdMap.assign_ordered _ _ _ ih

theorem registerAll_find (L : Logger) (regs : List (CString × ILoggerBackend))
    (h : L.mUserLoggers = []) (tag : CString) :
    (registerAll L regs).mUserLoggers.find tag = regs.reverse.lookup tag := by
  induction regs using List.reverseRecOn with
  | nil => simp [registerAll, h, StdMap.find]
  | append_singleton regs r ih =>
    rw [registerAll_append]
    simp only [addUserLogger, StdMap.find_assign, ih, List.reverse_append, List.reverse_cons,
      List.reverse_nil, List.nil_append, List.singleton_append]
    obtain ⟨k, b⟩ := r
    by_cases hk : tag = k
    · subst hk
      simp [List.lookup]
    · rw [if_neg hk, List.lookup]
      have : (tag == k) = false := by simpa using hk
      simp [this]

/-- C2 (amended): with a console backend, a file backend and the user backends
registered by any sequence of `addUserLogger` calls, and no flag set in the
merged flags, `logString` calls the console backend, then the file backend,
then every entry of the user map once, in the order of the map; that order is
the strictly ascending order of the tags, and the entry of a tag is the backend
registered last under it. -/
theorem logString_fans_out_in_tag_order (K : FlagValues) (L : Logger) (c : ConsoleLogger)
    (f : FileLogger) (regs : List (CString × ILoggerBackend)) (level : Nat) (msg : Nat → Nat)
    (flags len : Nat)
    (hc : L.mConsoleLogger = some c) (hf : L.mFileLogger = some f)
    (hu : L.mUserLoggers = [])
    (hflags : flags ||| (L.mFlags &&& K.krGlobalFlagMask) = 0) :
    logString K (registerAll L regs) level msg flags len =
      BackendCall.console c level msg 0 ::
      BackendCall.file f msg (if len = SIZE_MAX then strlen msg else len) 0 ::
      (registerAll L regs).mUserLoggers.map (fun logger =>
        BackendCall.user logger.2 level msg (if len = SIZE_MAX then strlen msg else len) 0) ∧
    (registerAll L regs).mUserLoggers.Ordered ∧
    ∀ (tag : CString) (logger : ILoggerBackend),
      (tag, logger) ∈ (registerAll L regs).mUserLoggers ↔
        regs.reverse.lookup tag = some logger := by
  have hord : (registerAll L regs).mUserLoggers.Ordered :=
    registerAll_ordered L regs (by rw [hu]; exact List.Pairwise.nil)
  obtain ⟨h1, h2, h3⟩ := registerAll_keeps L regs
  refine ⟨?_, hord, ?_⟩
  · unfold logString
    simp only [h1, h2, h3, hc, hf, hflags, Nat.zero_and, logicalAnd]
    cases hm : (registerAll L regs).mUserLoggers with
    | nil => simp
    | cons e rest => simp
  · intro tag logger
    rw [← registerAll_find L regs hu tag]
    constructor
    · exact StdMap.find_eq_some_of_mem _ hord tag logger
    · exact StdMap.mem_of_find_eq_some _ tag logger

theorem logString_fans_out_in_tag_order_witness :
    bothSinksLogger.mConsoleLogger = some ⟨1⟩ ∧
    bothSinksLogger.mFileLogger = some ⟨2, 0, lit "app.log", 1024⟩ ∧
    bothSinksLogger.mUserLoggers = [] ∧
    0 ||| (bothSinksLogger.mFlags &&& exampleFlags.krGlobalFlagMask) = 0 ∧
    (logString exampleFlags
        (registerAll bothSinksLogger [(lit "b", ⟨10⟩), (lit "a", ⟨11⟩)])
        krLogLevelError noonEnv.stack 0 5 =
      BackendCall.console ⟨1⟩ krLogLevelError noonEnv.stack 0 ::
      BackendCall.file ⟨2, 0, lit "app.log", 1024⟩ noonEnv.stack
        (if 5 = SIZE_MAX then strlen noonEnv.stack else 5) 0 ::
      (registerAll bothSinksLogger [(lit "b", ⟨10⟩), (lit "a", ⟨11⟩)]).mUserLoggers.map
        (fun logger => BackendCall.user logger.2 krLogLevelError noonEnv.stack
          (if 5 = SIZE_MAX then strlen noonEnv.stack else 5) 0) ∧
    (registerAll bothSinksLogger [(lit "b", ⟨10⟩), (lit "a", ⟨11⟩)]).mUserLoggers.Ordered ∧
    ∀ (tag : CString) (logger : ILoggerBackend),
      (tag, logger) ∈ (registerAll bothSinksLogger [(lit "b", ⟨10⟩), (lit "a", ⟨11⟩)]).mUserLoggers ↔
        [(lit "b", (⟨10⟩ : ILoggerBackend)), (lit "a", ⟨11⟩)].reverse.lookup tag = some logger) :=
  ⟨rfl, rfl, rfl, by decide,
    logString_fans_out_in_tag_order exampleFlags bothSinksLogger ⟨1⟩ ⟨2, 0, lit "app.log", 1024⟩
      [(lit "b", ⟨10⟩), (lit "a", ⟨11⟩)] krLogLevelError noonEnv.stack 0 5 rfl rfl rfl
      (by decide)⟩

/-- C2 (as stated) fails: after `addUserLogger("b", 10)` and then
`addUserLogger("a", 11)`, a line is delivered to backend 11 before backend 10,
which is not the order of registration. -/
theorem logString_not_in_registration_order :
    (logString exampleFlags
        (addUserLogger (addUserLogger bothSinksLogger (lit "b") ⟨10⟩) (lit "a") ⟨11⟩)
        krLogLevelError noonEnv.stack 0 5).map BackendCall.sink =
      [Sink.console ⟨1⟩, Sink.file ⟨2, 0, lit "app.log", 1024⟩, Sink.user ⟨11⟩, Sink.user ⟨10⟩] ∧
    (logString exampleFlags
        (addUserLogger (addUserLogger bothSinksLogger (lit "b") ⟨10⟩) (lit "a") ⟨11⟩)
        krLogLevelError noonEnv.stack 0 5).map BackendCall.sink ≠
      [Sink.console ⟨1⟩, Sink.file ⟨2, 0, lit "app.log", 1024⟩, Sink.user ⟨10⟩, Sink.user ⟨11⟩] := by
  decide


/-- The backends that `logString` calls, in order, whatever the flag constants
are: the console test reads `krLogNoFile`, the file test is the logical `&&`. -/
theorem logString_sinks (K : FlagValues) (L : Logger) (level : Nat) (msg : Nat → Nat)
    (flags len : Nat) :
    (logString K L level msg flags len).map BackendCall.sink =
      (match L.mConsoleLogger with
        | some c =>
          if (flags ||| (L.mFlags &&& K.krGlobalFlagMask)) &&& K.krLogNoFile = 0
          then [Sink.console c] else []
        | none => []) ++
      (match L.mFileLogger with
        | some f =>
          if flags ||| (L.mFlags &&& K.krGlobalFlagMask) = 0 ∨ K.krLogNoConsole = 0
          then [Sink.file f] else []
        | none => []) ++
      L.mUserLoggers.map (fun logger => Sink.user logger.2) := by
  have hand : ∀ a b : Nat, logicalAnd a b = 0 ↔ (a = 0 ∨ b = 0) := by
    intro a b
    unfold logicalAnd
    by_cases ha : a = 0
    · simp [ha]
    · by_cases hb : b = 0
      · simp [hb]
      · simp [ha, hb]
  unfold logString
  simp only [hand]
  cases L.mConsoleLogger <;> cases L.mFileLogger <;> cases L.mUserLoggers <;>
    simp only [List.isEmpty_nil, List.isEmpty_cons, if_true, Bool.false_eq_true, if_false,
      List.map_nil, List.map_cons, List.map_append, List.map_map] <;>
    (repeat' split) <;> simp [BackendCall.sink, Function.comp_def]

/-- C4 (the code diverges): with a console backend enabled, a line whose only
flag is `krLogNoConsole` is still delivered to the console, and a line whose
only flag is `krLogNoFile` is not. -/
theorem logString_console_tests_krLogNoFile :
    (logString exampleFlags consoleOnlyLogger krLogLevelError noonEnv.stack
        exampleFlags.krLogNoConsole 5).map BackendCall.sink = [Sink.console ⟨1⟩] ∧
    (logString exampleFlags consoleOnlyLogger krLogLevelError noonEnv.stack
        exampleFlags.krLogNoFile 5).map BackendCall.sink = [] := by
  decide

/-- C5 (the code diverges): with a file backend enabled, a line whose only flag
is `krLogNoLevel`, `krLogNoAutoFlush` or `krLogNoConsole` does not reach the
file backend; only a line without any flag does. -/
theorem logString_file_needs_no_flag_at_all :
    (logString exampleFlags fileOnlyLogger krLogLevelError noonEnv.stack
        exampleFlags.krLogNoLevel 5).map BackendCall.sink = [] ∧
    (logString exampleFlags fileOnlyLogger krLogLevelError noonEnv.stack
        exampleFlags.krLogNoAutoFlush 5).map BackendCall.sink = [] ∧
    (logString exampleFlags fileOnlyLogger krLogLevelError noonEnv.stack
        exampleFlags.krLogNoConsole 5).map BackendCall.sink = [] ∧
    (logString exampleFlags fileOnlyLogger krLogLevelError noonEnv.stack
        0 5).map BackendCall.sink = [Sink.file ⟨2, 0, lit "app.log", 1024⟩] := by
  decide

/-! ## Level names -/

theorem tolower_eq_zero (c : Nat) : tolower c = 0 ↔ c = 0 := by
  unfold tolower
  split <;> omega

theorem strcasecmp_eq_zero_iff : ∀ a b : CString, strcasecmp a b = 0 ↔ EqIgnoringCase a b := by
  intro a
  induction a with
  | nil =>
    intro b
    cases b with
    | nil => simp [strcasecmp, EqIgnoringCase]
    | cons y ys =>
      simp only [strcasecmp, EqIgnoringCase, caseFold]
      by_cases hy : y = 0
      · subst hy; simp [tolower]
      · rw [if_neg hy]
        have := (tolower_eq_zero y).not.mpr hy
        constructor
        · intro h; omega
        · intro h; cases h
  | cons x xs ih =>
    intro b
    cases b with
    | nil =>
      simp only [strcasecmp, EqIgnoringCase, caseFold]
      by_cases hx : x = 0
      · subst hx; simp [tolower]
      · rw [if_neg hx]
        have := (tolower_eq_zero x).not.mpr hx
        constructor
        · intro h; omega
        · intro h; cases h
    | cons y ys =>
      simp only [strcasecmp, EqIgnoringCase, caseFold]
      by_cases hxy : tolower x = tolower y
      · rw [if_pos hxy]
        by_cases hx : x = 0
        · have hy : y = 0 := by
            rw [← tolower_eq_zero, ← hxy, tolower_eq_zero]; exact hx
          rw [if_pos hx, if_pos hx, if_pos hy]
          simp
        · have hy : y ≠ 0 := by
            intro hy
            apply hx
            rw [← tolower_eq_zero, hxy, tolower_eq_zero]; exact hy
          rw [if_neg hx, if_neg hx, if_neg hy, ih ys]
          unfold EqIgnoringCase
          rw [hxy]
          constructor
          · intro h; rw [h]
          · intro h; exact (List.cons.inj h).2
      · rw [if_neg hxy]
        have hne : (tolower x : Int) - (tolower y : Int) ≠ 0 := by omega
        constructor
        · intro h; exact absurd h hne
        · intro h
          exfalso
          by_cases hx : x = 0
          · rw [if_pos hx] at h
            by_cases hy : y = 0
            · apply hxy; rw [hx, hy]
            · rw [if_neg hy] at h; cases h
          · rw [if_neg hx] at h
            by_cases hy : y = 0
            · rw [if_pos hy] at h; cases h
            · rw [if_neg hy] at h
              exact hxy (List.cons.inj h).1

theorem levelNameMatches_iff (s : CString) (name : KarereLogLevelName) :
    levelNameMatches s name = true ↔ MatchesRow s name := by
  obtain ⟨short, long⟩ := name
  cases short with
  | none =>
    simp [levelNameMatches, MatchesRow, strcasecmp_eq_zero_iff]
  | some sh =>
    simp [levelNameMatches, MatchesRow, strcasecmp_eq_zero_iff]

theorem krLogLevelStrToNumFrom_cases (s : CString) :
    ∀ (names : List KarereLogLevelName) (k : Nat),
      (krLogLevelStrToNumFrom s names k = UNSIGNED_MINUS_ONE ∧
        ∀ name ∈ names, levelNameMatches s name = false) ∨
      (∃ (i : Nat) (name : KarereLogLevelName), names[i]? = some name ∧
        levelNameMatches s name = true ∧
        (∀ (m : Nat) (other : KarereLogLevelName), m < i → names[m]? = some other →
          levelNameMatches s other = false) ∧
        krLogLevelStrToNumFrom s names k = k + i) := by
  intro names
  induction names with
  | nil =>
    intro k
    left
    exact ⟨rfl, by simp⟩
  | cons name rest ih =>
    intro k
    by_cases hm : levelNameMatches s name = true
    · right
      refine ⟨0, name, List.getElem?_cons_zero, hm, ?_, ?_⟩
      · intro m other hlt; omega
      · simp [krLogLevelStrToNumFrom, hm]
    · have hm' : levelNameMatches s name = false := by simpa using hm
      rcases ih (k + 1) with ⟨h1, h2⟩ | ⟨i, found, h1, h2, h3, h4⟩
      · left
        refine ⟨by simp [krLogLevelStrToNumFrom, hm', h1], ?_⟩
        intro other hother
        rcases List.mem_cons.mp hother with h | h
        · rw [h]; exact hm'
        · exact h2 other h
      · right
        refine ⟨i + 1, found, by simpa using h1, h2, ?_, ?_⟩
        · intro m other hlt hget
          cases m with
          | zero =>
            simp only [List.getElem?_cons_zero, Option.some.injEq] at hget
            rw [← hget]; exact hm'
          | succ m =>
            simp only [List.getElem?_cons_succ] at hget
            exact h3 m other (by omega) hget
        · simp only [krLogLevelStrToNumFrom, hm', Bool.false_eq_true, if_false, h4]
          omega


theorem krLogLevelNames_separated :
    ∀ n, n < 7 → ∀ i, i < n →
      levelNameMatches (krLogLevelNames.getD n (none, [])).2
        (krLogLevelNames.getD i (none, [])) = false := by
  decide

theorem MatchesRow_of_eqIgnoringCase (s t : CString) (name : KarereLogLevelName)
    (hst : EqIgnoringCase s t) (h : MatchesRow s name) : MatchesRow t name := by
  unfold MatchesRow EqIgnoringCase at *
  rcases h with h | ⟨short, h1, h2⟩
  · exact Or.inl (hst ▸ h)
  · exact Or.inr ⟨short, h1, hst ▸ h2⟩

theorem krLogLevelNames_lt (n : Nat) (name : KarereLogLevelName)
    (h : krLogLevelNames[n]? = some name) : n < 7 := by
  have := (List.getElem?_eq_some_iff.mp h).1
  simpa [krLogLevelNames] using this

/-- C10: `krLogLevelStrToNum s` is a level `n` exactly when row `n` of the table
matches `s` (long name, or short code when the row has one, ignoring ASCII
case) and no lower row does; it is `(unsigned)-1` exactly when no row matches;
it is never anything else; and a string equal to the long name of level `n`
ignoring ASCII case resolves to `n`. -/
theorem krLogLevelStrToNum_matches_names (s : CString) :
    (∀ n, n ≤ krLogLevelLast →
      (krLogLevelStrToNum s = n ↔
        (∃ name, krLogLevelNames[n]? = some name ∧ MatchesRow s name) ∧
        ∀ (m : Nat) (other : KarereLogLevelName), m < n → krLogLevelNames[m]? = some other →
          ¬ MatchesRow s other)) ∧
    (krLogLevelStrToNum s = UNSIGNED_MINUS_ONE ↔
      ∀ name ∈ krLogLevelNames, ¬ MatchesRow s name) ∧
    (krLogLevelStrToNum s ≤ krLogLevelLast ∨ krLogLevelStrToNum s = UNSIGNED_MINUS_ONE) ∧
    (∀ (n : Nat) (name : KarereLogLevelName), krLogLevelNames[n]? = some name →
      EqIgnoringCase s name.2 → krLogLevelStrToNum s = n) := by
  have hlast : krLogLevelLast = 6 := rfl
  have humo : UNSIGNED_MINUS_ONE = 4294967295 := rfl
  rcases krLogLevelStrToNumFrom_cases s krLogLevelNames 0 with
    ⟨h1, h2⟩ | ⟨i, found, h1, h2, h3, h4⟩
  · have hres : krLogLevelStrToNum s = UNSIGNED_MINUS_ONE := h1
    have hno : ∀ name ∈ krLogLevelNames, ¬ MatchesRow s name := by
      intro name hname hrow
      have := (levelNameMatches_iff s name).mpr hrow
      rw [h2 name hname] at this
      cases this
    refine ⟨?_, ?_, Or.inr hres, ?_⟩
    · intro n hn
      rw [hres]
      constructor
      · intro h; omega
      · rintro ⟨⟨name, hget, hrow⟩, _⟩
        exact absurd hrow (hno name (List.getElem?_mem hget))
    · exact ⟨fun _ => hno, fun _ => hres⟩
    · intro n name hget heq
      exact absurd (Or.inl heq) (hno name (List.getElem?_mem hget))
  · have hres : krLogLevelStrToNum s = i := by
      unfold krLogLevelStrToNum; rw [h4]; omega
    have hi : i < 7 := krLogLevelNames_lt i found h1
    have hfound : MatchesRow s found := (levelNameMatches_iff s found).mp h2
    have hbelow : ∀ (m : Nat) (other : KarereLogLevelName), m < i →
        krLogLevelNames[m]? = some other → ¬ MatchesRow s other := by
      intro m other hlt hget hrow
      have := (levelNameMatches_iff s other).mpr hrow
      rw [h3 m other hlt hget] at this
      cases this
    refine ⟨?_, ?_, Or.inl (by omega), ?_⟩
    · intro n hn
      rw [hres]
      constructor
      · intro h
        subst h
        exact ⟨⟨found, h1, hfound⟩, hbelow⟩
      · rintro ⟨⟨name, hget, hrow⟩, hmin⟩
        rcases Nat.lt_trichotomy i n with h | h | h
        · exact absurd hfound (hmin i found h h1)
        · exact h
        · exact absurd hrow (hbelow n name h hget)
    · rw [hres]
      constructor
      · intro h; omega
      · intro h
        exact absurd hfound (h found (List.getElem?_mem h1))
    · intro n name hget heq
      rw [hres]
      rcases Nat.lt_trichotomy i n with h | h | h
      · exfalso
        have hn : n < 7 := krLogLevelNames_lt n name hget
        have hsep := krLogLevelNames_separated n hn i h
        have e1 : krLogLevelNames.getD n (none, []) = name := by
          rw [List.getD_eq_getElem?_getD, hget]; rfl
        have e2 : krLogLevelNames.getD i (none, []) = found := by
          rw [List.getD_eq_getElem?_getD, h1]; rfl
        rw [e1, e2] at hsep
        have := (levelNameMatches_iff name.2 found).mpr
          (MatchesRow_of_eqIgnoringCase s name.2 found heq hfound)
        rw [hsep] at this
        cases this
      · exact h
      · exact absurd (Or.inl heq) (hbelow n name h hget)


/-! ## Configuration -/

theorem StdMap.find_none_of_keys_ne {V : Type} (m : StdMap V) (k : CString)
    (h : ∀ e ∈ m, e.1 ≠ k) : m.find k = none := by
  induction m with
  | nil => rfl
  | cons e rest ih =>
    obtain ⟨k1, v1⟩ := e
    rw [StdMap.find, if_neg (h (k1, v1) (List.mem_cons_self _ _))]
    exact ih (fun e he => h e (List.mem_cons_of_mem _ he))

theorem StdMap.erase_sublist {V : Type} (m : StdMap V) (k : CString) :
    List.Sublist (m.erase k) m := by
  induction m with
  | nil => exact List.Sublist.slnil
  | cons e rest ih =>
    obtain ⟨k1, v1⟩ := e
    rw [StdMap.erase]
    split
    · exact List.sublist_cons_self _ _
    · exact List.Sublist.cons₂ _ ih

theorem StdMap.erase_ordered {V : Type} (m : StdMap V) (k : CString) (hm : m.Ordered) :
    (m.erase k).Ordered :=
  List.Pairwise.sublist (StdMap.erase_sublist m k) hm

theorem StdMap.find_erase {V : Type} (m : StdMap V) (hm : m.Ordered) (k k2 : CString) :
    (m.erase k).find k2 = if k2 = k then none else m.find k2 := by
  induction m with
  | nil => simp [StdMap.erase, StdMap.find]
  | cons e rest ih =>
    obtain ⟨k1, v1⟩ := e
    unfold StdMap.Ordered at hm
    rw [List.pairwise_cons] at hm
    rw [StdMap.erase]
    by_cases h1 : k1 = k
    · rw [if_pos h1]
      by_cases h2 : k2 = k
      · rw [if_pos h2, h2]
        apply StdMap.find_none_of_keys_ne
        intro e he
        rw [← h1]
        exact fun h => strLt_ne _ _ (hm.1 e he) h.symm
      · rw [if_neg h2, StdMap.find, if_neg (by rw [h1]; exact fun h => h2 h.symm)]
    · rw [if_neg h1]
      simp only [StdMap.find]
      by_cases h2 : k1 = k2
      · rw [if_pos h2, if_neg (by rw [← h2]; exact h1), if_pos h2]
      · rw [if_neg h2, ih hm.2, if_neg h2]

theorem StdMap.find_map {V W : Type} (g : V → W) (m : StdMap V) (k : CString) :
    StdMap.find (m.map fun e => (e.1, g e.2)) k = (m.find k).map g := by
  induction m with
  | nil => rfl
  | cons e rest ih =>
    obtain ⟨k1, v1⟩ := e
    simp only [List.map_cons, StdMap.find]
    split
    · rfl
    · exact ih

theorem StdMap.map_ordered {V W : Type} (g : V → W) (m : StdMap V) (hm : m.Ordered) :
    StdMap.Ordered (m.map fun e => (e.1, g e.2)) := by
  unfold StdMap.Ordered at hm ⊢
  rw [List.pairwise_map]
  exact hm

theorem parseTokens_ordered :
    ∀ (tokens : List CString) (config parsed : StdMap CString), config.Ordered →
      parseTokens tokens config = .ok parsed → parsed.Ordered := by
  intro tokens
  induction tokens with
  | nil =>
    intro config parsed hc h
    simp only [parseTokens, Except.ok.injEq] at h
    rw [← h]; exact hc
  | cons token rest ih =>
    intro config parsed hc h
    rw [parseTokens] at h
    split at h
    · cases h
    · exact ih _ parsed (StdMap.assign_ordered _ _ _ hc) h

theorem parseNameValues_ordered (str : CString) (parsed : StdMap CString)
    (h : parseNameValues str [] = .ok parsed) : parsed.Ordered :=
  parseTokens_ordered _ [] parsed List.Pairwise.nil h

theorem verifyLevels_ok (m : StdMap CString)
    (h : ∀ e ∈ m, krLogLevelStrToNum e.2 ≠ UNSIGNED_MINUS_ONE) :
    verifyLevels m = .ok (m.map fun e => (e.1, (⟨e.2, krLogLevelStrToNum e.2⟩ : ParamVal))) := by
  induction m with
  | nil => rfl
  | cons e rest ih =>
    obtain ⟨k1, v1⟩ := e
    rw [verifyLevels]
    rw [if_neg (h (k1, v1) (List.mem_cons_self _ _)),
      ih (fun e he => h e (List.mem_cons_of_mem _ he))]
    rfl

theorem verifyLevels_error (m : StdMap CString)
    (h : ∃ e ∈ m, krLogLevelStrToNum e.2 = UNSIGNED_MINUS_ONE) :
    ∃ value, krLogLevelStrToNum value = UNSIGNED_MINUS_ONE ∧
      verifyLevels m =
        .error (lit "can't recognize log level name '" ++ value ++ lit "'") := by
  induction m with
  | nil =>
    obtain ⟨e, he, _⟩ := h
    cases he
  | cons e rest ih =>
    obtain ⟨k1, v1⟩ := e
    rw [verifyLevels]
    by_cases hv : krLogLevelStrToNum v1 = UNSIGNED_MINUS_ONE
    · exact ⟨v1, hv, by rw [if_pos hv]⟩
    · rw [if_neg hv]
      obtain ⟨e, he, hbad⟩ := h
      rcases List.mem_cons.mp he with he | he
      · rw [he] at hbad
        exact absurd hbad hv
      · obtain ⟨value, h1, h2⟩ := ih ⟨e, he, hbad⟩
        exact ⟨value, h1, by rw [h2]⟩

/-- C8 (amended): when a value that the configuration map parsed from `KRLOG`
holds is not a level name, `setupFromEnvVar` returns normally with every
channel as it was, whatever the other entries are, after exactly one call of
`log`, at level `error`, whose text names the value that was not recognised. -/
theorem setupFromEnvVar_rejects_unknown_level (L : Logger) (str : CString)
    (parsed : StdMap CString)
    (hparse : parseNameValues str [] = .ok parsed)
    (hbad : ∃ e ∈ parsed, krLogLevelStrToNum e.2 = UNSIGNED_MINUS_ONE) :
    ∃ value, krLogLevelStrToNum value = UNSIGNED_MINUS_ONE ∧
      setupFromEnvVar L (some str) =
        .done L.logChannels
          [{ pfx := some (lit "LOGGER"), level := krLogLevelError, flags := 0,
             rendered := lit "Error parsing KRLOG env variable: " ++
               (lit "can't recognize log level name '" ++ value ++ lit "'") ++
               lit ". Settings from that variable will not be applied" }] := by
  obtain ⟨value, h1, h2⟩ := verifyLevels_error parsed hbad
  refine ⟨value, h1, ?_⟩
  simp only [setupFromEnvVar, hparse, h2, parseErrorRequest]


theorem channelLoop_fst (allLevels : Nat) :
    ∀ (chans : List KarereLogChannel) (n : Nat) (acc : StdMap Nat),
      (channelLoop allLevels chans n acc).1 =
        chans.map fun chan =>
          if allLevels ≠ UNSIGNED_MINUS_ONE then { chan with logLevel := allLevels } else chan := by
  intro chans
  induction chans with
  | nil => intro n acc; rfl
  | cons c rest ih =>
    intro n acc
    simp only [channelLoop, List.map_cons, ih]

theorem channelLoop_key (allLevels : Nat) (chan : KarereLogChannel) :
    (if allLevels ≠ UNSIGNED_MINUS_ONE then { chan with logLevel := allLevels } else chan).id =
      chan.id := by
  split <;> rfl

theorem channelLoop_find_other (allLevels : Nat) (id : CString) :
    ∀ (chans : List KarereLogChannel) (n : Nat) (acc : StdMap Nat),
      (∀ chan ∈ chans, chan.id ≠ id) →
      (channelLoop allLevels chans n acc).2.find id = acc.find id := by
  intro chans
  induction chans with
  | nil => intro n acc _; rfl
  | cons c rest ih =>
    intro n acc h
    simp only [channelLoop]
    rw [ih _ _ (fun chan hc => h chan (List.mem_cons_of_mem _ hc)), StdMap.find_assign,
      channelLoop_key, if_neg (fun e => h c (List.mem_cons_self _ _) e.symm)]

theorem channelLoop_find (allLevels : Nat) :
    ∀ (chans : List KarereLogChannel) (n : Nat) (acc : StdMap Nat) (i : Nat)
      (chan : KarereLogChannel),
      (chans.map fun c => c.id).Nodup → chans[i]? = some chan →
      (channelLoop allLevels chans n acc).2.find chan.id = some (n + i) := by
  intro chans
  induction chans with
  | nil => intro n acc i chan _ h; simp at h
  | cons c rest ih =>
    intro n acc i chan hnd hget
    rw [List.map_cons, List.nodup_cons] at hnd
    simp only [channelLoop]
    cases i with
    | zero =>
      simp only [List.getElem?_cons_zero, Option.some.injEq] at hget
      subst hget
      rw [channelLoop_find_other, StdMap.find_assign, channelLoop_key, if_pos rfl]
      · rfl
      · intro chan hchan heq
        exact hnd.1 (List.mem_map.mpr ⟨chan, hchan, heq⟩)
    | succ m =>
      simp only [List.getElem?_cons_succ] at hget
      rw [ih (n + 1) _ m chan hnd.2 hget]
      congr 1
      omega

theorem setLogLevel_eq_map :
    ∀ (table : List KarereLogChannel) (i level : Nat) (chan : KarereLogChannel),
      table[i]? = some chan → (table.map fun c => c.id).Nodup →
      setLogLevel table i level =
        table.map fun c => if c.id = chan.id then { c with logLevel := level } else c := by
  intro table
  induction table with
  | nil => intro i level chan h; simp at h
  | cons c rest ih =>
    intro i level chan hget hnd
    rw [List.map_cons, List.nodup_cons] at hnd
    cases i with
    | zero =>
      simp only [List.getElem?_cons_zero, Option.some.injEq] at hget
      subst hget
      simp only [setLogLevel, List.map_cons, if_pos]
      congr 1
      symm
      calc rest.map (fun x => if x.id = c.id then { x with logLevel := level } else x)
          = rest.map id := by
            apply List.map_congr_left
            intro x hx
            rw [if_neg (fun e => hnd.1 (List.mem_map.mpr ⟨x, hx, e⟩))]
            rfl
        _ = rest := List.map_id _
    | succ m =>
      simp only [List.getElem?_cons_succ] at hget
      have hne : c.id ≠ chan.id := by
        intro e
        exact hnd.1 (List.mem_map.mpr ⟨chan, List.getElem?_mem hget, e.symm⟩)
      simp only [setLogLevel, List.map_cons, if_neg hne]
      rw [ih m level chan hget hnd.2]

/-- The table after the loop over `config`, when every name is a channel id. -/
theorem itemLoop_done (chans : StdMap Nat) (requests : List LogRequest) :
    ∀ (items : StdMap ParamVal) (table : List KarereLogChannel),
      items.Ordered → (table.map fun c => c.id).Nodup →
      (∀ e ∈ items, ∃ (i : Nat) (chan : KarereLogChannel),
        chans.find e.1 = some i ∧ table[i]? = some chan ∧ chan.id = e.1) →
      itemLoop chans items table requests =
        .done (table.map fun chan =>
          { chan with
            logLevel := ((items.find chan.id).map fun v => v.numVal).getD chan.logLevel })
          requests := by
  intro items
  induction items with
  | nil =>
    intro table _ _ _
    simp only [itemLoop, StdMap.find, Option.map_none', Option.getD_none]
    congr 1
    exact (List.map_id' _).symm
  | cons e rest ih =>
    intro table hord hnd hreg
    obtain ⟨name, value⟩ := e
    obtain ⟨i, chan, hfind, hget, hid⟩ := hreg (name, value) (List.mem_cons_self _ _)
    unfold StdMap.Ordered at hord
    rw [List.pairwise_cons] at hord
    simp only at hfind hid
    simp only [itemLoop, hfind]
    rw [setLogLevel_eq_map table i value.numVal chan hget hnd]
    have hids : ((table.map fun c =>
        if c.id = chan.id then { c with logLevel := value.numVal } else c).map fun c => c.id) =
        table.map fun c => c.id := by
      rw [List.map_map]
      apply List.map_congr_left
      intro c _
      simp only [Function.comp]
      split <;> rfl
    rw [ih _ hord.2 (by rw [hids]; exact hnd)]
    · congr 1
      rw [List.map_map]
      apply List.map_congr_left
      intro c _
      simp only [Function.comp, StdMap.find]
      by_cases hc : c.id = chan.id
      · rw [if_pos hc]
        have hnone : StdMap.find rest chan.id = none := by
          apply StdMap.find_none_of_keys_ne
          intro e he
          rw [hid]
          exact fun h => strLt_ne _ _ (hord.1 e he) h.symm
        have hnone2 : StdMap.find rest c.id = none := by rw [hc]; exact hnone
        rw [if_pos (by rw [hc, hid])]
        simp [hnone2]
      · rw [if_neg hc, if_neg (by rw [← hid]; exact fun h => hc h.symm)]
    · intro e he
      obtain ⟨j, chj, h1, h2, h3⟩ := hreg e (List.mem_cons_of_mem _ he)
      refine ⟨j, if chj.id = chan.id then { chj with logLevel := value.numVal } else chj,
        h1, ?_, ?_⟩
      · rw [List.getElem?_map, h2]; rfl
      · rw [← h3]; split <;> rfl


/-- C7: when the `KRLOG` configuration has an entry `all`, every value is a
level name and every other name is the id of a channel (the ids being
distinct), `setupFromEnvVar` returns normally without a diagnostic and leaves
every channel that has an entry with the level of its entry and every other
channel with the level of `all`; the result depends on the set of entries
only, not on the place of `all` in the string. -/
theorem setupFromEnvVar_all_then_explicit (L : Logger) (str : CString)
    (parsed : StdMap CString) (allName : CString)
    (hparse : parseNameValues str [] = .ok parsed)
    (hall : parsed.find (lit "all") = some allName)
    (hlevels : ∀ e ∈ parsed, krLogLevelStrToNum e.2 ≠ UNSIGNED_MINUS_ONE)
    (hknown : ∀ e ∈ parsed, e.1 ≠ lit "all" → ∃ chan ∈ L.logChannels, chan.id = e.1)
    (hids : (L.logChannels.map fun c => c.id).Nodup) :
    setupFromEnvVar L (some str) =
      .done (L.logChannels.map fun chan =>
        { chan with logLevel := krLogLevelStrToNum ((parsed.find chan.id).getD allName) })
        [] := by
  have hord : parsed.Ordered := parseNameValues_ordered str parsed hparse
  have hallLevel : krLogLevelStrToNum allName ≠ UNSIGNED_MINUS_ONE :=
    hlevels (lit "all", allName) (StdMap.mem_of_find_eq_some _ _ _ hall)
  have hcfgOrd : StdMap.Ordered
      (parsed.map fun e => (e.1, (⟨e.2, krLogLevelStrToNum e.2⟩ : ParamVal))) :=
    StdMap.map_ordered (fun v => (⟨v, krLogLevelStrToNum v⟩ : ParamVal)) parsed hord
  have hfm : ∀ k, StdMap.find
      (parsed.map fun e => (e.1, (⟨e.2, krLogLevelStrToNum e.2⟩ : ParamVal))) k =
      (parsed.find k).map fun v => (⟨v, krLogLevelStrToNum v⟩ : ParamVal) :=
    fun k => StdMap.find_map (fun v => (⟨v, krLogLevelStrToNum v⟩ : ParamVal)) parsed k
  have htableIds : ((channelLoop (krLogLevelStrToNum allName) L.logChannels 0 []).1.map
      fun c => c.id) = L.logChannels.map fun c => c.id := by
    rw [channelLoop_fst, List.map_map]
    apply List.map_congr_left
    intro c _
    exact channelLoop_key _ c
  simp only [setupFromEnvVar, hparse, verifyLevels_ok parsed hlevels, hfm, hall,
    Option.map_some']
  rw [itemLoop_done _ _ _ _ (StdMap.erase_ordered _ _ hcfgOrd) (by rw [htableIds]; exact hids)]
  · congr 1
    rw [channelLoop_fst, List.map_map]
    apply List.map_congr_left
    intro c _
    simp only [Function.comp, if_pos hallLevel, StdMap.find_erase _ hcfgOrd, hfm]
    by_cases hc : c.id = lit "all"
    · rw [if_pos hc, hc, hall]
      rfl
    · rw [if_neg hc]
      cases hfind : parsed.find c.id with
      | none => rfl
      | some v => rfl
  · intro e he
    have h1 := StdMap.find_eq_some_of_mem _ (StdMap.erase_ordered _ (lit "all") hcfgOrd)
      e.1 e.2 he
    rw [StdMap.find_erase _ hcfgOrd, hfm] at h1
    by_cases hk : e.1 = lit "all"
    · rw [if_pos hk] at h1; cases h1
    · rw [if_neg hk] at h1
      cases hfind : parsed.find e.1 with
      | none => rw [hfind] at h1; cases h1
      | some v =>
        obtain ⟨chan, hchan, hid⟩ :=
          hknown (e.1, v) (StdMap.mem_of_find_eq_some _ _ _ hfind) hk
        obtain ⟨i, hi⟩ := List.mem_iff_getElem?.mp hchan
        refine ⟨i, if krLogLevelStrToNum allName ≠ UNSIGNED_MINUS_ONE then
          { chan with logLevel := krLogLevelStrToNum allName } else chan, ?_, ?_, ?_⟩
        · have := channelLoop_find (krLogLevelStrToNum allName) L.logChannels 0 [] i chan hids hi
          rw [hid, Nat.zero_add] at this
          exact this
        · rw [channelLoop_fst, List.getElem?_map, hi]
          rfl
        · rw [channelLoop_key]
          exact hid

theorem setupFromEnvVar_all_then_explicit_witness :
    parseNameValues (lit "mychannel=debug;all=warn") [] =
      .ok [(lit "all", lit "warn"), (lit "mychannel", lit "debug")] ∧
    StdMap.find [(lit "all", lit "warn"), (lit "mychannel", lit "debug")] (lit "all") =
      some (lit "warn") ∧
    (∀ e ∈ [(lit "all", lit "warn"), (lit "mychannel", lit "debug")],
      krLogLevelStrToNum e.2 ≠ UNSIGNED_MINUS_ONE) ∧
    (∀ e ∈ [(lit "all", lit "warn"), (lit "mychannel", lit "debug")], e.1 ≠ lit "all" →
      ∃ chan ∈ threeChannelLogger.logChannels, chan.id = e.1) ∧
    (threeChannelLogger.logChannels.map fun c => c.id).Nodup ∧
    setupFromEnvVar threeChannelLogger (some (lit "mychannel=debug;all=warn")) =
      .done (threeChannelLogger.logChannels.map fun chan =>
        { chan with
          logLevel := krLogLevelStrToNum
            ((StdMap.find [(lit "all", lit "warn"), (lit "mychannel", lit "debug")]
              chan.id).getD (lit "warn")) }) [] :=
  ⟨rfl, by decide, by decide, by decide, by decide,
    setupFromEnvVar_all_then_explicit threeChannelLogger (lit "mychannel=debug;all=warn")
      [(lit "all", lit "warn"), (lit "mychannel", lit "debug")] (lit "warn")
      rfl (by decide) (by decide) (by decide) (by decide)⟩

theorem setupFromEnvVar_rejects_unknown_level_witness :
    parseNameValues (lit "rtc=debug;all=bogus") [] =
      .ok [(lit "all", lit "bogus"), (lit "rtc", lit "debug")] ∧
    (∃ e ∈ [(lit "all", lit "bogus"), (lit "rtc", lit "debug")],
      krLogLevelStrToNum e.2 = UNSIGNED_MINUS_ONE) ∧
    ∃ value, krLogLevelStrToNum value = UNSIGNED_MINUS_ONE ∧
      setupFromEnvVar threeChannelLogger (some (lit "rtc=debug;all=bogus")) =
        .done threeChannelLogger.logChannels
          [{ pfx := some (lit "LOGGER"), level := krLogLevelError, flags := 0,
             rendered := lit "Error parsing KRLOG env variable: " ++
               (lit "can't recognize log level name '" ++ value ++ lit "'") ++
               lit ". Settings from that variable will not be applied" }] :=
  ⟨rfl, by decide,
    setupFromEnvVar_rejects_unknown_level threeChannelLogger (lit "rtc=debug;all=bogus")
      [(lit "all", lit "bogus"), (lit "rtc", lit "debug")] rfl (by decide)⟩

/-- C9 (the code diverges): with the channels `default`, `mychannel` and `rtc`
and `KRLOG` set to `rtc=debug;nosuch=warn`, `setupFromEnvVar` emits the
diagnostic for `nosuch` and then dereferences `chans.end()`; no threshold has
been changed at that point, `rtc` included. -/
theorem setupFromEnvVar_unknown_channel_dereferences_end :
    setupFromEnvVar threeChannelLogger (some (lit "rtc=debug;nosuch=warn")) =
      .undefined threeChannelLogger.logChannels [unknownChannelRequest (lit "nosuch")] := by
  decide


/-! ## Copying strings -/

theorem cText_replicate (n c : Nat) (hc : c ≠ 0) : cText (List.replicate n c) = List.replicate n c := by
  induction n with
  | zero => rfl
  | succ n ih => rw [List.replicate_succ, cText, if_neg hc, ih]

/-- The loop of `myStrncpy` when the rest of the string and its terminator fit
into what is left of `maxCount`. -/
theorem myStrncpyLoop_fits (maxCount : Nat) :
    ∀ (src : CString) (count dptr : Nat) (buf : Buffer),
      count + (cText src).length ≤ maxCount →
      myStrncpyLoop maxCount src count dptr buf =
        (buf.writeList dptr (cText src ++ [0]), count + (cText src).length,
          dptr + (cText src).length) := by
  intro src
  induction src with
  | nil =>
    intro count dptr buf h
    simp only [cText, List.length_nil, Nat.add_zero] at h ⊢
    rw [myStrncpyLoop, if_pos h]
    rfl
  | cons c rest ih =>
    intro count dptr buf h
    by_cases hc : c = 0
    · simp only [cText, if_pos hc, List.length_nil, Nat.add_zero] at h ⊢
      rw [myStrncpyLoop, if_pos h, if_pos hc]
      rfl
    · simp only [cText, if_neg hc, List.length_cons] at h ⊢
      rw [myStrncpyLoop, if_pos (by omega), if_neg hc, ih _ _ _ (by omega)]
      simp only [List.cons_append, Buffer.writeList]
      refine Prod.ext rfl (Prod.ext ?_ ?_) <;> simp only <;> omega

/-- The function `myStrncpy` when the string and its terminator fit into
`maxCount` bytes. -/
theorem myStrncpy_fits (buf : Buffer) (dest : Nat) (src : CString) (maxCount : Nat)
    (h : (cText src).length < maxCount) :
    myStrncpy buf dest src maxCount =
      (buf.writeList dest (cText src ++ [0]), (cText src).length) := by
  unfold myStrncpy
  rw [myStrncpyLoop_fits maxCount src 1 dest buf (by omega)]
  simp only
  rw [if_neg (by omega)]
  refine Prod.ext rfl ?_
  simp only
  omega

/-- The loop of `myStrncpy` when the rest of the string is longer than what is
left of `maxCount`: it stops on the count, after copying the bytes that were
left, with `dptr` advanced past them. -/
theorem myStrncpyLoop_truncates (maxCount : Nat) :
    ∀ (src : CString) (count dptr : Nat) (buf : Buffer),
      count ≤ maxCount + 1 → maxCount < count + (cText src).length →
      myStrncpyLoop maxCount src count dptr buf =
        (buf.writeList dptr ((cText src).take (maxCount + 1 - count)), maxCount + 1,
          dptr + (maxCount + 1 - count)) := by
  intro src
  induction src with
  | nil =>
    intro count dptr buf h1 h2
    simp only [cText, List.length_nil, Nat.add_zero] at h2
    have hc : count = maxCount + 1 := by omega
    subst hc
    rw [myStrncpyLoop, if_neg (by omega)]
    simp [Buffer.writeList, cText]
  | cons c rest ih =>
    intro count dptr buf h1 h2
    by_cases hcount : count ≤ maxCount
    · by_cases hc : c = 0
      · simp only [cText, if_pos hc, List.length_nil, Nat.add_zero] at h2
        omega
      · simp only [cText, if_neg hc, List.length_cons] at h2 ⊢
        rw [myStrncpyLoop, if_pos hcount, if_neg hc, ih _ _ _ (by omega) (by omega)]
        have hk : maxCount + 1 - count = (maxCount + 1 - (count + 1)) + 1 := by omega
        rw [hk, List.take_succ_cons, Buffer.writeList]
        refine Prod.ext rfl (Prod.ext rfl ?_)
        simp only
        omega
    · have hc : count = maxCount + 1 := by omega
      subst hc
      rw [myStrncpyLoop, if_neg (by omega)]
      simp [Buffer.writeList]

/-- The function `myStrncpy` when the string is at least `maxCount` bytes long:
the first `maxCount` bytes are copied, and the terminator is stored through the
advanced `dptr`, at offset `dest + 2 * maxCount - 1`. -/
theorem myStrncpy_truncates (buf : Buffer) (dest : Nat) (src : CString) (maxCount : Nat)
    (h1 : 1 ≤ maxCount) (h2 : maxCount ≤ (cText src).length)
    (h3 : dest + 2 * maxCount - 1 < SIZE_MOD) :
    myStrncpy buf dest src maxCount =
      ((buf.writeList dest ((cText src).take maxCount)).write (dest + 2 * maxCount - 1) 0,
        maxCount - 1) := by
  unfold myStrncpy
  rw [myStrncpyLoop_truncates maxCount src 1 dest buf (by omega) (by omega)]
  simp only
  have hs : sizeSub maxCount 1 = maxCount - 1 := by
    unfold sizeSub SIZE_MOD at *
    omega
  rw [if_pos (by omega), hs]
  have hm : (dest + (maxCount + 1 - 1) + (maxCount - 1)) % SIZE_MOD = dest + 2 * maxCount - 1 := by
    unfold SIZE_MOD at *
    omega
  rw [hm]
  simp

/-- C19 (the code diverges): `myStrncpy(dest, "hello", 3)` returns 2 and copies
`hel`, so `dest[2]` is the letter `l` and not the terminator; the terminator is
stored at `dest[5]`, beyond `maxCount`. -/
theorem myStrncpy_truncation_leaves_no_terminator :
    (myStrncpy ⟨fun _ => 7, []⟩ 0 (lit "hello") 3).2 = 2 ∧
    (myStrncpy ⟨fun _ => 7, []⟩ 0 (lit "hello") 3).1.content 6 = [104, 101, 108, 7, 7, 0] ∧
    (myStrncpy ⟨fun _ => 7, []⟩ 0 (lit "hello") 3).1.bytes 2 ≠ 0 ∧
    (myStrncpy ⟨fun _ => 7, []⟩ 0 (lit "hello") 3).1.written = [5, 2, 1, 0] := by
  decide


/-! ## The prefix -/

theorem bracketPart_length (t : List Nat) : (bracketPart (some t)).length = t.length + 2 := by
  simp [bracketPart]

/-- The bytes that an opening bracket at `k`, a text with its terminator and a
closing bracket over the terminator leave in the buffer. -/
theorem bracket_content (buf : Buffer) (k : Nat) (t pre : List Nat)
    (hpre : buf.content k = pre) :
    (((buf.write k 91).writeList (k + 1) (t ++ [0])).write (k + 1 + t.length) 93).content
        (k + (t.length + 2)) = pre ++ bracketPart (some t) := by
  rw [Buffer.content_add]
  refine congrArg₂ (fun a b : List Nat => a ++ b) ?_ ?_
  · rw [← hpre]
    apply Buffer.content_congr
    intro j hj
    rw [Buffer.write_bytes, if_neg (by omega), Buffer.writeList_bytes, if_neg (by omega),
      Buffer.write_bytes, if_neg (by omega)]
  · rw [← bracketPart_length t]
    apply map_range_eq
    intro i hi
    rw [bracketPart_length] at hi
    rw [Buffer.write_bytes, Buffer.writeList_bytes, Buffer.write_bytes]
    simp only [bracketPart, List.length_append, List.length_singleton]
    cases i with
    | zero =>
      rw [if_neg (by omega), if_neg (by omega), if_pos (by omega)]
      rfl
    | succ m =>
      rw [List.getD_cons_succ]
      by_cases hm : m < t.length
      · rw [if_neg (by omega), if_pos (by omega), List.getD_append _ _ _ _ hm]
        have h1 : k + (m + 1) - (k + 1) = m := by omega
        rw [h1, List.getD_append _ _ _ _ hm]
      · have hm2 : m = t.length := by omega
        subst hm2
        rw [if_pos (by omega), List.getD_append_right _ _ _ _ (Nat.le_refl _)]
        simp

theorem prependPart_fits (buf : Buffer) (bufSize k : Nat) (text : CString)
    (hsize : bufSize < SIZE_MOD) (hroom : k + (cText text).length + 2 < bufSize) :
    prependPart buf bufSize k text =
      (((buf.write k 91).writeList (k + 1) (cText text ++ [0])).write
          (k + 1 + (cText text).length) 93,
        k + ((cText text).length + 2)) := by
  unfold prependPart
  simp only
  have hs : sizeSub bufSize (k + 1) = bufSize - (k + 1) :=
    sizeSub_small _ _ (by omega) (by unfold SIZE_MOD at hsize; omega)
  rw [hs, myStrncpy_fits _ _ _ _ (by omega)]
  simp only
  have hm : (k + 1 + (cText text).length) % SIZE_MOD = k + 1 + (cText text).length := by
    unfold SIZE_MOD at *; omega
  rw [hm]
  refine Prod.ext rfl ?_
  simp only
  omega

/-- One bracketed part written by `prependPart` after a prefix `pre` of `k`
bytes, when the part and one more byte fit. -/
theorem prependPart_content (buf : Buffer) (bufSize k : Nat) (text : CString) (pre : List Nat)
    (hsize : bufSize < SIZE_MOD) (hroom : k + (cText text).length + 2 < bufSize)
    (hpre : buf.content k = pre) :
    (prependPart buf bufSize k text).2 = k + ((cText text).length + 2) ∧
    (prependPart buf bufSize k text).1.content (k + ((cText text).length + 2)) =
      pre ++ bracketPart (some (cText text)) := by
  rw [prependPart_fits buf bufSize k text hsize hroom]
  exact ⟨rfl, bracket_content buf k (cText text) pre hpre⟩

/-- The trailing space of `prependInfo`. -/
theorem space_content (buf : Buffer) (n : Nat) (parts : List Nat) (hlen : parts.length = n)
    (hc : buf.content n = parts) :
    (if n ≠ 0 then (buf.write n 32, n + 1) else (buf, n)).2 =
      (if parts = [] then [] else parts ++ [32]).length ∧
    (if n ≠ 0 then (buf.write n 32, n + 1) else (buf, n)).1.content
        (if n ≠ 0 then (buf.write n 32, n + 1) else (buf, n)).2 =
      (if parts = [] then [] else parts ++ [32]) := by
  by_cases hn : n = 0
  · have hp : parts = [] := List.length_eq_zero.mp (by omega)
    subst hn
    simp [hp, Buffer.content]
  · have hp : parts ≠ [] := by
      intro h; rw [h] at hlen; simp at hlen; omega
    rw [if_pos hn, if_neg hp]
    refine ⟨by simp [hlen], ?_⟩
    simp only
    rw [Buffer.content_add, ← hc]
    refine congrArg₂ (fun a b : List Nat => a ++ b) ?_ ?_
    · apply Buffer.content_congr
      intro j hj
      rw [Buffer.write_bytes, if_neg (by omega)]
    · simp [Buffer.write_bytes, List.range_succ]


theorem renders_stamp (K : FlagValues) (L : Logger) (stamp : CString) (buf : Buffer)
    (bufSize : Nat) (hsize : bufSize < SIZE_MOD)
    (hroom : L.mFlags &&& K.krLogNoTimestamps = 0 → stamp.length + 2 < bufSize) :
    Renders
      (if L.mFlags &&& K.krLogNoTimestamps = 0 then
        ((strftime (buf.write 0 91) 1 (sizeSub bufSize 1) stamp).1.write
            (1 + (strftime (buf.write 0 91) 1 (sizeSub bufSize 1) stamp).2) 93,
          1 + (strftime (buf.write 0 91) 1 (sizeSub bufSize 1) stamp).2 + 1)
       else (buf, 0))
      (bracketPart (if L.mFlags &&& K.krLogNoTimestamps = 0 then some stamp else none)) := by
  by_cases hts : L.mFlags &&& K.krLogNoTimestamps = 0
  · have hr := hroom hts
    rw [if_pos hts, if_pos hts]
    have hs : sizeSub bufSize 1 = bufSize - 1 :=
      sizeSub_small _ _ (by omega) (by unfold SIZE_MOD at hsize; omega)
    have hst : strftime (buf.write 0 91) 1 (bufSize - 1) stamp =
        ((buf.write 0 91).writeList 1 (stamp ++ [0]), stamp.length) := by
      unfold strftime
      rw [if_pos (by omega)]
    rw [hs, hst]
    unfold Renders
    rw [bracketPart_length]
    refine ⟨by simp only; omega, ?_⟩
    have h := bracket_content buf 0 stamp [] rfl
    simp only [Nat.zero_add, List.nil_append] at h
    simp only
    have e1 : 1 + stamp.length = 1 + stamp.length := rfl
    exact h
  · rw [if_neg hts, if_neg hts]
    exact ⟨rfl, rfl⟩

theorem renders_part (bufSize : Nat) (hsize : bufSize < SIZE_MOD) (o : Option CString)
    (s : Buffer × Nat) (pre : List Nat) (hs : Renders s pre) :
    (∀ text, o = some text → pre.length + (cText text).length + 2 < bufSize) →
    Renders
      (match o with
        | some text => prependPart s.1 bufSize s.2 text
        | none => s)
      (pre ++ bracketPart (o.map cText)) := by
  intro hroom
  obtain ⟨b, n⟩ := s
  obtain ⟨hn, hc⟩ := hs
  simp only at hn hc
  subst hn
  cases o with
  | none =>
    simp only [Option.map_none', bracketPart, List.append_nil]
    exact ⟨rfl, hc⟩
  | some text =>
    have hr := hroom text rfl
    obtain ⟨h1, h2⟩ := prependPart_content b bufSize pre.length text pre hsize hr hc
    simp only [Option.map_some']
    unfold Renders
    rw [List.length_append, bracketPart_length]
    exact ⟨h1, h2⟩

theorem renders_space (s : Buffer × Nat) (parts : List Nat) (hs : Renders s parts) :
    Renders (if s.2 ≠ 0 then (s.1.write s.2 32, s.2 + 1) else s)
      (if parts = [] then [] else parts ++ [32]) := by
  obtain ⟨b, n⟩ := s
  obtain ⟨hn, hc⟩ := hs
  simp only at hn hc
  subst hn
  obtain ⟨h1, h2⟩ := space_content b parts.length parts rfl hc
  unfold Renders
  simp only
  refine ⟨h1, ?_⟩
  rw [← h1]
  exact h2

/-- What `prependInfo` leaves in the buffer and returns when the prefix fits. -/
theorem prependInfo_fits (K : FlagValues) (L : Logger) (stamp : CString) (buf : Buffer)
    (bufSize : Nat) (pfx severity : Option CString) (hsize : bufSize < SIZE_MOD)
    (hfit : (prefixAsSpecified
        (if L.mFlags &&& K.krLogNoTimestamps = 0 then some stamp else none)
        (severity.map cText) (pfx.map cText)).length ≤ bufSize) :
    Renders (prependInfo K L stamp buf bufSize pfx severity)
      (prefixAsSpecified (if L.mFlags &&& K.krLogNoTimestamps = 0 then some stamp else none)
        (severity.map cText) (pfx.map cText)) := by
  have hparts : (bracketPart (if L.mFlags &&& K.krLogNoTimestamps = 0 then some stamp else none)
      ++ bracketPart (severity.map cText) ++ bracketPart (pfx.map cText)) ≠ [] →
      (bracketPart (if L.mFlags &&& K.krLogNoTimestamps = 0 then some stamp else none)
      ++ bracketPart (severity.map cText) ++ bracketPart (pfx.map cText)).length + 1
        ≤ bufSize := by
    intro hne
    unfold prefixAsSpecified at hfit
    rw [if_neg hne, List.length_append, List.length_singleton] at hfit
    exact hfit
  have h1 := renders_stamp K L stamp buf bufSize hsize (by
    intro hts
    rw [if_pos hts] at hparts
    have := hparts (by simp [bracketPart])
    simp only [List.length_append, bracketPart_length] at this
    omega)
  have h2 := renders_part bufSize hsize severity _ _ h1 (by
    intro text htext
    subst htext
    have := hparts (by simp [bracketPart])
    simp only [List.length_append, Option.map_some', bracketPart_length] at this
    omega)
  have h3 := renders_part bufSize hsize pfx _ _ h2 (by
    intro text htext
    subst htext
    have := hparts (by simp [bracketPart])
    simp only [List.length_append, Option.map_some', bracketPart_length] at this
    simp only [List.length_append]
    omega)
  exact renders_space _ _ h3


/-- C11: when the prefix in the words of the specification (the timestamp part
unless `krLogNoTimestamps` is set in `mFlags`, the severity part and the
channel part when given, each between brackets, then one space if there is any
part) fits into `bufSize` bytes, `prependInfo` returns its length and leaves it
in the first bytes of the buffer; when there is no part, the buffer is left as
it was and 0 is returned. -/
theorem prependInfo_renders_prefix (K : FlagValues) (L : Logger) (stamp : CString)
    (buf : Buffer) (bufSize : Nat) (pfx severity : Option CString)
    (hsize : bufSize < SIZE_MOD)
    (hfit : (prefixAsSpecified
        (if L.mFlags &&& K.krLogNoTimestamps = 0 then some stamp else none)
        (severity.map cText) (pfx.map cText)).length ≤ bufSize) :
    (prependInfo K L stamp buf bufSize pfx severity).2 =
      (prefixAsSpecified (if L.mFlags &&& K.krLogNoTimestamps = 0 then some stamp else none)
        (severity.map cText) (pfx.map cText)).length ∧
    (prependInfo K L stamp buf bufSize pfx severity).1.content
        (prefixAsSpecified (if L.mFlags &&& K.krLogNoTimestamps = 0 then some stamp else none)
          (severity.map cText) (pfx.map cText)).length =
      prefixAsSpecified (if L.mFlags &&& K.krLogNoTimestamps = 0 then some stamp else none)
        (severity.map cText) (pfx.map cText) ∧
    ((L.mFlags &&& K.krLogNoTimestamps ≠ 0 ∧ severity = none ∧ pfx = none) →
      prependInfo K L stamp buf bufSize pfx severity = (buf, 0)) := by
  obtain ⟨h1, h2⟩ := prependInfo_fits K L stamp buf bufSize pfx severity hsize hfit
  refine ⟨h1, h2, ?_⟩
  rintro ⟨hts, hsev, hpfx⟩
  subst hsev hpfx
  unfold prependInfo
  simp only [if_neg hts]
  rfl

theorem prependInfo_renders_prefix_witness :
    LOGGER_SPRINTF_BUF_SIZE < SIZE_MOD ∧
    (prefixAsSpecified
        (if consoleOnlyLogger.mFlags &&& exampleFlags.krLogNoTimestamps = 0
          then some (lit "12:00") else none)
        ((some (lit "ERR")).map cText) ((some (lit "DEF")).map cText)).length
      ≤ LOGGER_SPRINTF_BUF_SIZE ∧
    prefixAsSpecified
        (if consoleOnlyLogger.mFlags &&& exampleFlags.krLogNoTimestamps = 0
          then some (lit "12:00") else none)
        ((some (lit "ERR")).map cText) ((some (lit "DEF")).map cText) =
      lit "[12:00][ERR][DEF] " ∧
    ((prependInfo exampleFlags consoleOnlyLogger (lit "12:00") ⟨noonEnv.stack, []⟩
        LOGGER_SPRINTF_BUF_SIZE (some (lit "DEF")) (some (lit "ERR"))).2 =
      (prefixAsSpecified
        (if consoleOnlyLogger.mFlags &&& exampleFlags.krLogNoTimestamps = 0
          then some (lit "12:00") else none)
        ((some (lit "ERR")).map cText) ((some (lit "DEF")).map cText)).length ∧
    (prependInfo exampleFlags consoleOnlyLogger (lit "12:00") ⟨noonEnv.stack, []⟩
        LOGGER_SPRINTF_BUF_SIZE (some (lit "DEF")) (some (lit "ERR"))).1.content
        (prefixAsSpecified
          (if consoleOnlyLogger.mFlags &&& exampleFlags.krLogNoTimestamps = 0
            then some (lit "12:00") else none)
          ((some (lit "ERR")).map cText) ((some (lit "DEF")).map cText)).length =
      prefixAsSpecified
        (if consoleOnlyLogger.mFlags &&& exampleFlags.krLogNoTimestamps = 0
          then some (lit "12:00") else none)
        ((some (lit "ERR")).map cText) ((some (lit "DEF")).map cText) ∧
    ((consoleOnlyLogger.mFlags &&& exampleFlags.krLogNoTimestamps ≠ 0 ∧
        some (lit "ERR") = none ∧ some (lit "DEF") = none) →
      prependInfo exampleFlags consoleOnlyLogger (lit "12:00") ⟨noonEnv.stack, []⟩
        LOGGER_SPRINTF_BUF_SIZE (some (lit "DEF")) (some (lit "ERR")) =
        (⟨noonEnv.stack, []⟩, 0))) :=
  ⟨by decide, by decide, by decide,
    prependInfo_renders_prefix exampleFlags consoleOnlyLogger (lit "12:00")
      ⟨noonEnv.stack, []⟩ LOGGER_SPRINTF_BUF_SIZE (some (lit "DEF")) (some (lit "ERR"))
      (by decide) (by decide)⟩

/-- The prefix of the line that `logv` hands to `logString`, when it fits. -/
theorem logvPrepare_renders (K : FlagValues) (L : Logger) (env : Env) (pfx : Option CString)
    (level flags : Nat) (rendered : CString) (name : KarereLogLevelName)
    (hname : krLogLevelNames[level]? = some name)
    (hfit : (prefixAsSpecified
        (if L.mFlags &&& K.krLogNoTimestamps = 0 then some env.stamp else none)
        (if flags &&& K.krLogNoLevel = 0 then name.1.map cText else none)
        (pfx.map cText)).length ≤ LOGGER_SPRINTF_BUF_SIZE - 2)
    (hlen : (rendered.length : Int) < INT_MAX) :
    ∃ buf : Buffer,
      logvPrepare K L env pfx level flags rendered =
        .dispatch buf
          ((prefixAsSpecified
            (if L.mFlags &&& K.krLogNoTimestamps = 0 then some env.stamp else none)
            (if flags &&& K.krLogNoLevel = 0 then name.1.map cText else none)
            (pfx.map cText)).length + rendered.length) ∧
      buf.content
          ((prefixAsSpecified
            (if L.mFlags &&& K.krLogNoTimestamps = 0 then some env.stamp else none)
            (if flags &&& K.krLogNoLevel = 0 then name.1.map cText else none)
            (pfx.map cText)).length + rendered.length) =
        prefixAsSpecified
            (if L.mFlags &&& K.krLogNoTimestamps = 0 then some env.stamp else none)
            (if flags &&& K.krLogNoLevel = 0 then name.1.map cText else none)
            (pfx.map cText) ++ rendered := by
  have hsev : severityArg K level flags =
      some (if flags &&& K.krLogNoLevel = 0 then name.1 else none) := by
    unfold severityArg
    by_cases hf : flags &&& K.krLogNoLevel = 0
    · rw [if_neg (by simpa using hf), if_pos hf, hname]
      rfl
    · rw [if_pos hf, if_neg hf]
  have hmap : (if flags &&& K.krLogNoLevel = 0 then name.1 else none).map cText =
      (if flags &&& K.krLogNoLevel = 0 then name.1.map cText else none) := by
    split <;> rfl
  have hbuf : LOGGER_SPRINTF_BUF_SIZE = 10240 := rfl
  have hp := prependInfo_fits K L env.stamp ⟨env.stack, []⟩ LOGGER_SPRINTF_BUF_SIZE pfx
    (if flags &&& K.krLogNoLevel = 0 then name.1 else none)
    (by unfold SIZE_MOD; rw [hbuf]; norm_num) (by rw [hmap]; omega)
  rw [hmap] at hp
  obtain ⟨hp1, hp2⟩ := hp
  obtain ⟨buf, hd, hc, _⟩ := logvPrepare_fits K L env pfx level flags rendered _ hsev
    (by unfold prependOnStack; rw [hp1]; exact hfit) hlen
  unfold prependOnStack at hd hc
  rw [hp1] at hd hc
  rw [hp2] at hc
  exact ⟨buf, hd, hc⟩


/-- C17 (amended): in the line that `logv` hands to `logString`, the timestamp
part is absent exactly when `krLogNoTimestamps` is set in the global flags
`mFlags`, and the level tag of a level that has a short code is absent exactly
when `krLogNoLevel` is set in the per-call flags; the two sets of flags are not
combined for the prefix. -/
theorem logv_prefix_follows_separate_flags (K : FlagValues) (L : Logger) (env : Env)
    (pfx : Option CString) (level flags : Nat) (rendered : CString)
    (name : KarereLogLevelName)
    (hname : krLogLevelNames[level]? = some name)
    (hfit : (prefixAsSpecified
        (if L.mFlags &&& K.krLogNoTimestamps = 0 then some env.stamp else none)
        (if flags &&& K.krLogNoLevel = 0 then name.1.map cText else none)
        (pfx.map cText)).length ≤ LOGGER_SPRINTF_BUF_SIZE - 2)
    (hlen : (rendered.length : Int) < INT_MAX) :
    (∃ buf : Buffer,
      logvPrepare K L env pfx level flags rendered =
        .dispatch buf
          ((prefixAsSpecified
            (if L.mFlags &&& K.krLogNoTimestamps = 0 then some env.stamp else none)
            (if flags &&& K.krLogNoLevel = 0 then name.1.map cText else none)
            (pfx.map cText)).length + rendered.length) ∧
      buf.content
          ((prefixAsSpecified
            (if L.mFlags &&& K.krLogNoTimestamps = 0 then some env.stamp else none)
            (if flags &&& K.krLogNoLevel = 0 then name.1.map cText else none)
            (pfx.map cText)).length + rendered.length) =
        prefixAsSpecified
            (if L.mFlags &&& K.krLogNoTimestamps = 0 then some env.stamp else none)
            (if flags &&& K.krLogNoLevel = 0 then name.1.map cText else none)
            (pfx.map cText) ++ rendered) ∧
    (bracketPart (if L.mFlags &&& K.krLogNoTimestamps = 0 then some env.stamp else none) = [] ↔
      L.mFlags &&& K.krLogNoTimestamps ≠ 0) ∧
    (∀ short, name.1 = some short →
      (bracketPart (if flags &&& K.krLogNoLevel = 0 then name.1.map cText else none) = [] ↔
        flags &&& K.krLogNoLevel ≠ 0)) := by
  refine ⟨logvPrepare_renders K L env pfx level flags rendered name hname hfit hlen, ?_, ?_⟩
  · by_cases h : L.mFlags &&& K.krLogNoTimestamps = 0
    · rw [if_pos h]; simp [bracketPart, h]
    · rw [if_neg h]; simp [bracketPart, h]
  · intro short hshort
    by_cases h : flags &&& K.krLogNoLevel = 0
    · rw [if_pos h, hshort]; simp [bracketPart, h]
    · rw [if_neg h]; simp [bracketPart, h]

theorem logv_prefix_follows_separate_flags_witness :
    krLogLevelNames[krLogLevelError]? = some (some (lit "ERR"), lit "error") ∧
    (prefixAsSpecified
        (if noStampLogger.mFlags &&& exampleFlags.krLogNoTimestamps = 0
          then some noonEnv.stamp else none)
        (if exampleFlags.krLogNoLevel &&& exampleFlags.krLogNoLevel = 0
          then (some (lit "ERR")).map cText else none)
        ((some (lit "DEF")).map cText)).length ≤ LOGGER_SPRINTF_BUF_SIZE - 2 ∧
    prefixAsSpecified
        (if noStampLogger.mFlags &&& exampleFlags.krLogNoTimestamps = 0
          then some noonEnv.stamp else none)
        (if exampleFlags.krLogNoLevel &&& exampleFlags.krLogNoLevel = 0
          then (some (lit "ERR")).map cText else none)
        ((some (lit "DEF")).map cText) = lit "[DEF] " ∧
    ((∃ buf : Buffer,
      logvPrepare exampleFlags noStampLogger noonEnv (some (lit "DEF")) krLogLevelError
          exampleFlags.krLogNoLevel (lit "hi") =
        .dispatch buf
          ((prefixAsSpecified
            (if noStampLogger.mFlags &&& exampleFlags.krLogNoTimestamps = 0
              then some noonEnv.stamp else none)
            (if exampleFlags.krLogNoLevel &&& exampleFlags.krLogNoLevel = 0
              then (some (lit "ERR"), lit "error").1.map cText else none)
            ((some (lit "DEF")).map cText)).length + (lit "hi").length) ∧
      buf.content
          ((prefixAsSpecified
            (if noStampLogger.mFlags &&& exampleFlags.krLogNoTimestamps = 0
              then some noonEnv.stamp else none)
            (if exampleFlags.krLogNoLevel &&& exampleFlags.krLogNoLevel = 0
              then (some (lit "ERR"), lit "error").1.map cText else none)
            ((some (lit "DEF")).map cText)).length + (lit "hi").length) =
        prefixAsSpecified
            (if noStampLogger.mFlags &&& exampleFlags.krLogNoTimestamps = 0
              then some noonEnv.stamp else none)
            (if exampleFlags.krLogNoLevel &&& exampleFlags.krLogNoLevel = 0
              then (some (lit "ERR"), lit "error").1.map cText else none)
            ((some (lit "DEF")).map cText) ++ lit "hi") ∧
    (bracketPart (if noStampLogger.mFlags &&& exampleFlags.krLogNoTimestamps = 0
        then some noonEnv.stamp else none) = [] ↔
      noStampLogger.mFlags &&& exampleFlags.krLogNoTimestamps ≠ 0) ∧
    (∀ short, (some (lit "ERR"), lit "error").1 = some short →
      (bracketPart (if exampleFlags.krLogNoLevel &&& exampleFlags.krLogNoLevel = 0
          then (some (lit "ERR"), lit "error").1.map cText else none) = [] ↔
        exampleFlags.krLogNoLevel &&& exampleFlags.krLogNoLevel ≠ 0))) :=
  ⟨by decide, by decide, by decide,
    logv_prefix_follows_separate_flags exampleFlags noStampLogger noonEnv (some (lit "DEF"))
      krLogLevelError exampleFlags.krLogNoLevel (lit "hi") (some (lit "ERR"), lit "error")
      (by decide) (by decide) (by decide)⟩

/-- C17 (as stated) fails: with `krLogNoTimestamps` set in the per-call flags
only, the line still starts with the timestamp, and with `krLogNoLevel` set in
the global flags only, the line still has the level tag, although the flag is
set in the bitwise OR of the two in both cases. -/
theorem logv_prefix_ignores_combined_flags :
    (consoleOnlyLogger.mFlags ||| exampleFlags.krLogNoTimestamps) &&&
        exampleFlags.krLogNoTimestamps ≠ 0 ∧
    (∃ buf : Buffer,
      logvPrepare exampleFlags consoleOnlyLogger noonEnv (some (lit "DEF")) krLogLevelError
          exampleFlags.krLogNoTimestamps (lit "hi") = .dispatch buf 20 ∧
      buf.content 20 = lit "[12:00][ERR][DEF] hi") ∧
    (noLevelLogger.mFlags ||| 0) &&& exampleFlags.krLogNoLevel ≠ 0 ∧
    (∃ buf : Buffer,
      logvPrepare exampleFlags noLevelLogger noonEnv (some (lit "DEF")) krLogLevelError
          0 (lit "hi") = .dispatch buf 20 ∧
      buf.content 20 = lit "[12:00][ERR][DEF] hi") := by
  refine ⟨by decide, ?_, by decide, ?_⟩
  · obtain ⟨buf, hd, hc⟩ := logvPrepare_renders exampleFlags consoleOnlyLogger noonEnv
      (some (lit "DEF")) krLogLevelError exampleFlags.krLogNoTimestamps (lit "hi")
      (some (lit "ERR"), lit "error") (by decide) (by decide) (by decide)
    exact ⟨buf, hd, hc⟩
  · obtain ⟨buf, hd, hc⟩ := logvPrepare_renders exampleFlags noLevelLogger noonEnv
      (some (lit "DEF")) krLogLevelError 0 (lit "hi")
      (some (lit "ERR"), lit "error") (by decide) (by decide) (by decide)
    exact ⟨buf, hd, hc⟩

/-! ## Truncation -/

theorem Buffer.write_written (buf : Buffer) (i v : Nat) :
    (buf.write i v).written = i :: buf.written := rfl

/-- One bracketed part written by `prependPart` when the text does not fit into
what is left of the buffer: the bytes stored and the count returned. -/
theorem prependPart_truncates (buf : Buffer) (bufSize k : Nat) (text : CString)
    (h1 : k + 1 < bufSize) (h2 : bufSize - (k + 1) ≤ (cText text).length)
    (hs : 2 * bufSize < SIZE_MOD) :
    prependPart buf bufSize k text =
      ((((buf.write k 91).writeList (k + 1) ((cText text).take (bufSize - (k + 1)))).write
          (2 * bufSize - k - 2) 0).write (bufSize - 1) 93,
        bufSize) := by
  unfold prependPart
  simp only
  have hsub : sizeSub bufSize (k + 1) = bufSize - (k + 1) :=
    sizeSub_small _ _ (by omega) (by unfold SIZE_MOD at hs; omega)
  rw [hsub, myStrncpy_truncates _ _ _ _ (by omega) h2 (by omega)]
  simp only
  have hm : (k + 1 + (bufSize - (k + 1) - 1)) % SIZE_MOD = bufSize - 1 := by
    unfold SIZE_MOD at *; omega
  have ht : k + 1 + 2 * (bufSize - (k + 1)) - 1 = 2 * bufSize - k - 2 := by omega
  rw [hm, ht]
  refine Prod.ext rfl ?_
  simp only
  omega

/-- C18 (the code diverges): with timestamps suppressed, no severity and a
channel prefix of 20000 bytes, `prependInfo` on the array of
`LOGGER_SPRINTF_BUF_SIZE` bytes returns 10241 and writes at the offsets 20478
and 10240, which are outside the array; the space that `logv` computes from
that count is -3. -/
theorem prependInfo_overruns_buffer :
    (prependInfo exampleFlags noStampLogger (lit "12:00") ⟨noonEnv.stack, []⟩
        LOGGER_SPRINTF_BUF_SIZE (some (List.replicate 20000 120)) none).2 = 10241 ∧
    20478 ∈ (prependInfo exampleFlags noStampLogger (lit "12:00") ⟨noonEnv.stack, []⟩
        LOGGER_SPRINTF_BUF_SIZE (some (List.replicate 20000 120)) none).1.written ∧
    10240 ∈ (prependInfo exampleFlags noStampLogger (lit "12:00") ⟨noonEnv.stack, []⟩
        LOGGER_SPRINTF_BUF_SIZE (some (List.replicate 20000 120)) none).1.written ∧
    toInt32 (sizeSub (LOGGER_SPRINTF_BUF_SIZE - 2) 10241) = -3 := by
  have hflag : ¬ (noStampLogger.mFlags &&& exampleFlags.krLogNoTimestamps = 0) := by decide
  have hlen : (cText (List.replicate 20000 120)).length = 20000 := by
    rw [cText_replicate _ _ (by decide), List.length_replicate]
  have hp := prependPart_truncates ⟨noonEnv.stack, []⟩ LOGGER_SPRINTF_BUF_SIZE 0
    (List.replicate 20000 120) (by decide) (by rw [hlen]; decide) (by decide)
  have he : prependInfo exampleFlags noStampLogger (lit "12:00") ⟨noonEnv.stack, []⟩
      LOGGER_SPRINTF_BUF_SIZE (some (List.replicate 20000 120)) none =
      ((prependPart ⟨noonEnv.stack, []⟩ LOGGER_SPRINTF_BUF_SIZE 0
          (List.replicate 20000 120)).1.write
        (prependPart ⟨noonEnv.stack, []⟩ LOGGER_SPRINTF_BUF_SIZE 0
          (List.replicate 20000 120)).2 32,
       (prependPart ⟨noonEnv.stack, []⟩ LOGGER_SPRINTF_BUF_SIZE 0
          (List.replicate 20000 120)).2 + 1) := by
    unfold prependInfo
    simp only [if_neg hflag]
    rw [hp]
    simp only
    rw [if_pos (by decide)]
  rw [he, hp]
  dsimp only
  have e1 : 2 * LOGGER_SPRINTF_BUF_SIZE - 0 - 2 = 20478 := by decide
  have e2 : LOGGER_SPRINTF_BUF_SIZE = 10240 := rfl
  refine ⟨by decide, ?_, ?_, by decide⟩
  · rw [Buffer.write_written, Buffer.write_written, Buffer.write_written, e1]
    exact List.mem_cons_of_mem _ (List.mem_cons_of_mem _ (List.mem_cons_self _ _))
  · rw [Buffer.write_written, e2]
    exact List.mem_cons_self _ _


/-! ## Configuring the backends -/

/-- C12: `logToConsole(b)` twice leaves the logger as `logToConsole(b)` once
does, whatever `new ConsoleLogger` would return; enabling when a console
backend exists leaves the logger, that backend included, as it is; and after
`logToConsole(false)` there is no console backend. -/
theorem logToConsole_idempotent (L : Logger) (b : Bool) (fresh1 fresh2 : ConsoleLogger) :
    logToConsole (logToConsole L b fresh1) b fresh2 = logToConsole L b fresh1 ∧
    (∀ c : ConsoleLogger,
      logToConsole { L with mConsoleLogger := some c } true fresh1 =
        { L with mConsoleLogger := some c }) ∧
    (logToConsole L false fresh1).mConsoleLogger = none := by
  refine ⟨?_, ?_, ?_⟩
  · cases b <;> cases h : L.mConsoleLogger <;> simp [logToConsole, h]
  · intro c
    simp [logToConsole]
  · cases h : L.mConsoleLogger <;> simp [logToConsole, h]

/-- The file part and the console part of a fan-out hold no user backend, and
the user part holds no file backend. -/
theorem logString_file_sink (K : FlagValues) (L : Logger) (level : Nat) (msg : Nat → Nat)
    (flags len : Nat) (f : FileLogger)
    (h : Sink.file f ∈ (logString K L level msg flags len).map BackendCall.sink) :
    L.mFileLogger = some f := by
  rw [logString_sinks] at h
  rcases List.mem_append.mp h with h | h
  · rcases List.mem_append.mp h with h | h
    · cases hc : L.mConsoleLogger with
      | none => rw [hc] at h; cases h
      | some c =>
        rw [hc] at h
        simp only at h
        split at h
        · simp at h
        · cases h
    · cases hf : L.mFileLogger with
      | none => rw [hf] at h; cases h
      | some g =>
        rw [hf] at h
        simp only at h
        split at h
        · simp only [List.mem_singleton, Sink.file.injEq] at h
          rw [h]
        · cases h
  · simp at h

theorem logString_user_sink (K : FlagValues) (L : Logger) (level : Nat) (msg : Nat → Nat)
    (flags len : Nat) (u : ILoggerBackend) :
    Sink.user u ∈ (logString K L level msg flags len).map BackendCall.sink ↔
      ∃ e ∈ L.mUserLoggers, e.2 = u := by
  rw [logString_sinks]
  constructor
  · intro h
    rcases List.mem_append.mp h with h | h
    · exfalso
      rcases List.mem_append.mp h with h | h
      · cases hc : L.mConsoleLogger with
        | none => rw [hc] at h; cases h
        | some c =>
          rw [hc] at h
          simp only at h
          split at h
          · simp at h
          · cases h
      · cases hf : L.mFileLogger with
        | none => rw [hf] at h; cases h
        | some g =>
          rw [hf] at h
          simp only at h
          split at h
          · simp at h
          · cases h
    · obtain ⟨e, he, heq⟩ := List.mem_map.mp h
      exact ⟨e, he, by simpa using heq⟩
  · rintro ⟨e, he, heq⟩
    apply List.mem_append_right
    exact List.mem_map.mpr ⟨e, he, by rw [heq]⟩

/-- C13: after `logToFile(path, size)` followed by `logToFile(NULL, _)` the
logger has no file backend, its console backend, user backends and global
flags are those it had before, and `logString` calls no file backend. -/
theorem logToFile_then_disable (K : FlagValues) (L : Logger) (path : CString)
    (size size2 fresh fresh2 level : Nat) (msg : Nat → Nat) (flags len : Nat) :
    (logToFile (logToFile L (some path) size fresh) none size2 fresh2).mFileLogger = none ∧
    (logToFile (logToFile L (some path) size fresh) none size2 fresh2).mConsoleLogger =
      L.mConsoleLogger ∧
    (logToFile (logToFile L (some path) size fresh) none size2 fresh2).mUserLoggers =
      L.mUserLoggers ∧
    (logToFile (logToFile L (some path) size fresh) none size2 fresh2).mFlags = L.mFlags ∧
    ∀ f : FileLogger,
      Sink.file f ∉
        (logString K (logToFile (logToFile L (some path) size fresh) none size2 fresh2)
          level msg flags len).map BackendCall.sink := by
  refine ⟨rfl, rfl, rfl, rfl, ?_⟩
  intro f h
  have := logString_file_sink K _ level msg flags len f h
  cases this

theorem strLt_asymm (a b : CString) (h : strLt a b = true) : strLt b a = false := by
  cases hba : strLt b a with
  | false => rfl
  | true =>
    have := strLt_trans a b a h hba
    rw [strLt_irrefl] at this
    cases this

theorem StdMap.keys_nodup {V : Type} (m : StdMap V) (hm : m.Ordered) :
    (m.map Prod.fst).Nodup := by
  unfold StdMap.Ordered at hm
  unfold List.Nodup
  rw [List.pairwise_map]
  exact List.Pairwise.imp (fun h => strLt_ne _ _ h) hm

theorem StdMap.assign_length_of_find {V : Type} (m : StdMap V) (hm : m.Ordered) (k : CString)
    (v old : V) (h : m.find k = some old) : (m.assign k v).length = m.length := by
  induction m with
  | nil => simp [StdMap.find] at h
  | cons e rest ih =>
    obtain ⟨k1, v1⟩ := e
    unfold StdMap.Ordered at hm
    rw [List.pairwise_cons] at hm
    rw [StdMap.assign]
    by_cases hk : k1 = k
    · subst hk
      rw [if_neg (by rw [strLt_irrefl]; simp), if_neg (by rw [strLt_irrefl]; simp)]
      rfl
    · rw [StdMap.find, if_neg hk] at h
      have hlt : strLt k1 k = true := hm.1 (k, old) (StdMap.mem_of_find_eq_some _ _ _ h)
      rw [if_neg (by rw [strLt_asymm _ _ hlt]; simp), if_pos hlt]
      simp only [List.length_cons]
      rw [ih hm.2 h]

/-- C14: on a well-formed map of user backends, `removeUserLogger(tag)` returns
true exactly when a backend is registered under `tag`; afterwards none is, the
backend registered under any other tag is the same as before, and the entries
of the map are those it had under other tags. -/
theorem removeUserLogger_removes_only_tag (L : Logger) (tag : CString)
    (hmap : L.mUserLoggers.Ordered) :
    ((removeUserLogger L tag).1 = true ↔ ∃ logger, L.mUserLoggers.find tag = some logger) ∧
    (removeUserLogger L tag).2.mUserLoggers.find tag = none ∧
    (∀ other, other ≠ tag →
      (removeUserLogger L tag).2.mUserLoggers.find other = L.mUserLoggers.find other) ∧
    (∀ e, e ∈ (removeUserLogger L tag).2.mUserLoggers ↔ e ∈ L.mUserLoggers ∧ e.1 ≠ tag) ∧
    (removeUserLogger L tag).2.mUserLoggers.Ordered := by
  have hfind : ∀ other, (removeUserLogger L tag).2.mUserLoggers.find other =
      if other = tag then none else L.mUserLoggers.find other := by
    intro other
    unfold removeUserLogger
    cases h : L.mUserLoggers.find tag with
    | none =>
      simp only
      by_cases ho : other = tag
      · rw [if_pos ho, ho, h]
      · rw [if_neg ho]
    | some logger =>
      simp only
      exact StdMap.find_erase _ hmap tag other
  have hord : (removeUserLogger L tag).2.mUserLoggers.Ordered := by
    unfold removeUserLogger
    cases h : L.mUserLoggers.find tag with
    | none => exact hmap
    | some logger => exact StdMap.erase_ordered _ _ hmap
  refine ⟨?_, ?_, ?_, ?_, hord⟩
  · unfold removeUserLogger
    cases h : L.mUserLoggers.find tag with
    | none => simp
    | some logger => simp
  · rw [hfind, if_pos rfl]
  · intro other ho
    rw [hfind, if_neg ho]
  · intro e
    obtain ⟨k, v⟩ := e
    constructor
    · intro he
      have h1 := StdMap.find_eq_some_of_mem _ hord k v he
      rw [hfind] at h1
      by_cases hk : k = tag
      · rw [if_pos hk] at h1; cases h1
      · rw [if_neg hk] at h1
        exact ⟨StdMap.mem_of_find_eq_some _ _ _ h1, hk⟩
    · rintro ⟨he, hk⟩
      apply StdMap.mem_of_find_eq_some
      rw [hfind, if_neg hk]
      exact StdMap.find_eq_some_of_mem _ hmap k v he

theorem twoUsersLogger_ordered : twoUsersLogger.mUserLoggers.Ordered :=
  StdMap.assign_ordered _ _ _ (StdMap.assign_ordered _ _ _ List.Pairwise.nil)

theorem removeUserLogger_removes_only_tag_witness :
    twoUsersLogger.mUserLoggers.Ordered ∧
    (((removeUserLogger twoUsersLogger (lit "a")).1 = true ↔
      ∃ logger, twoUsersLogger.mUserLoggers.find (lit "a") = some logger) ∧
    (removeUserLogger twoUsersLogger (lit "a")).2.mUserLoggers.find (lit "a") = none ∧
    (∀ other, other ≠ lit "a" →
      (removeUserLogger twoUsersLogger (lit "a")).2.mUserLoggers.find other =
        twoUsersLogger.mUserLoggers.find other) ∧
    (∀ e, e ∈ (removeUserLogger twoUsersLogger (lit "a")).2.mUserLoggers ↔
      e ∈ twoUsersLogger.mUserLoggers ∧ e.1 ≠ lit "a") ∧
    (removeUserLogger twoUsersLogger (lit "a")).2.mUserLoggers.Ordered) :=
  ⟨twoUsersLogger_ordered,
    removeUserLogger_removes_only_tag twoUsersLogger (lit "a") twoUsersLogger_ordered⟩

theorem count_of_nodup_mem (l : List CString) (hn : l.Nodup) (k : CString) (hk : k ∈ l) :
    l.count k = 1 := by
  induction l with
  | nil => cases hk
  | cons a rest ih =>
    rw [List.nodup_cons] at hn
    rw [List.count_cons]
    rcases List.mem_cons.mp hk with h | h
    · subst h
      rw [List.count_eq_zero_of_not_mem hn.1]
      simp
    · have hne : a ≠ k := fun e => hn.1 (e ▸ h)
      rw [ih hn.2 h]
      simp [hne]

/-- C15: when `tag` is registered with a backend that the map owns under no
other tag, `addUserLogger(tag, b)` with another backend `b` leaves exactly one
entry under `tag`, which holds `b`, and as many entries as before; a following
`logString` calls `b` and does not call the replaced backend. -/
theorem addUserLogger_replaces (K : FlagValues) (L : Logger) (tag : CString)
    (b old : ILoggerBackend) (level : Nat) (msg : Nat → Nat) (flags len : Nat)
    (hmap : L.mUserLoggers.Ordered)
    (hold : L.mUserLoggers.find tag = some old)
    (hown : ∀ e ∈ L.mUserLoggers, e.2 = old → e.1 = tag)
    (hnew : b ≠ old) :
    (addUserLogger L tag b).mUserLoggers.find tag = some b ∧
    ((addUserLogger L tag b).mUserLoggers.map Prod.fst).count tag = 1 ∧
    (∀ e ∈ (addUserLogger L tag b).mUserLoggers, e.1 = tag → e.2 = b) ∧
    (addUserLogger L tag b).mUserLoggers.length = L.mUserLoggers.length ∧
    Sink.user b ∈
      (logString K (addUserLogger L tag b) level msg flags len).map BackendCall.sink ∧
    Sink.user old ∉
      (logString K (addUserLogger L tag b) level msg flags len).map BackendCall.sink := by
  have hord : (addUserLogger L tag b).mUserLoggers.Ordered :=
    StdMap.assign_ordered _ _ _ hmap
  have hfind : (addUserLogger L tag b).mUserLoggers.find tag = some b := by
    unfold addUserLogger
    simp only
    rw [StdMap.find_assign, if_pos rfl]
  have hmem : (tag, b) ∈ (addUserLogger L tag b).mUserLoggers :=
    StdMap.mem_of_find_eq_some _ _ _ hfind
  have hone : ∀ e ∈ (addUserLogger L tag b).mUserLoggers, e.1 = tag → e.2 = b := by
    intro e he hk
    obtain ⟨k, v⟩ := e
    simp only at hk
    subst hk
    have := StdMap.find_eq_some_of_mem _ hord k v he
    rw [hfind] at this
    simp only [Option.some.injEq] at this
    exact this.symm
  refine ⟨hfind, ?_, hone, ?_, ?_, ?_⟩
  · apply count_of_nodup_mem _ (StdMap.keys_nodup _ hord)
    exact List.mem_map.mpr ⟨(tag, b), hmem, rfl⟩
  · exact StdMap.assign_length_of_find _ hmap tag b old hold
  · rw [logString_user_sink]
    exact ⟨(tag, b), hmem, rfl⟩
  · rw [logString_user_sink]
    rintro ⟨e, he, heq⟩
    rcases StdMap.mem_assign _ _ _ _ he with h | h
    · rw [h] at heq
      exact hnew heq
    · have hk := hown e h heq
      exact hnew ((hone e he hk).symm.trans heq)

theorem addUserLogger_replaces_witness :
    twoUsersLogger.mUserLoggers.Ordered ∧
    twoUsersLogger.mUserLoggers.find (lit "a") = some ⟨11⟩ ∧
    (∀ e ∈ twoUsersLogger.mUserLoggers, e.2 = (⟨11⟩ : ILoggerBackend) → e.1 = lit "a") ∧
    (⟨12⟩ : ILoggerBackend) ≠ ⟨11⟩ ∧
    ((addUserLogger twoUsersLogger (lit "a") ⟨12⟩).mUserLoggers.find (lit "a") = some ⟨12⟩ ∧
    ((addUserLogger twoUsersLogger (lit "a") ⟨12⟩).mUserLoggers.map Prod.fst).count (lit "a")
      = 1 ∧
    (∀ e ∈ (addUserLogger twoUsersLogger (lit "a") ⟨12⟩).mUserLoggers,
      e.1 = lit "a" → e.2 = ⟨12⟩) ∧
    (addUserLogger twoUsersLogger (lit "a") ⟨12⟩).mUserLoggers.length =
      twoUsersLogger.mUserLoggers.length ∧
    Sink.user ⟨12⟩ ∈
      (logString exampleFlags (addUserLogger twoUsersLogger (lit "a") ⟨12⟩) krLogLevelError
        noonEnv.stack 0 5).map BackendCall.sink ∧
    Sink.user ⟨11⟩ ∉
      (logString exampleFlags (addUserLogger twoUsersLogger (lit "a") ⟨12⟩) krLogLevelError
        noonEnv.stack 0 5).map BackendCall.sink) :=
  ⟨twoUsersLogger_ordered, by decide, by decide, by decide,
    addUserLogger_replaces exampleFlags twoUsersLogger (lit "a") ⟨12⟩ ⟨11⟩ krLogLevelError
      noonEnv.stack 0 5 twoUsersLogger_ordered (by decide) (by decide) (by decide)⟩


/-! ## Entries of one name -/

/-- C8 (as stated) fails: `KRLOG` set to `all=bogus;all=warn` has the value
`bogus`, which is not a level name, yet the map holds one value for `all`, the
one of the later entry, and `setupFromEnvVar` sets every threshold to `warn`
without any diagnostic. -/
theorem setupFromEnvVar_shadowed_value_passes :
    (tokenize (lit "all=bogus;all=warn") []).map splitNameValue =
      [some (lit "all", lit "bogus"), some (lit "all", lit "warn")] ∧
    krLogLevelStrToNum (lit "bogus") = UNSIGNED_MINUS_ONE ∧
    threeChannelLogger.logChannels.map (fun chan => chan.logLevel) =
      [krLogLevelInfo, krLogLevelInfo, krLogLevelError] ∧
    setupFromEnvVar threeChannelLogger (some (lit "all=bogus;all=warn")) =
      .done
        [ ⟨lit "default", some (lit "DEF"), krLogLevelWarn, 0⟩,
          ⟨lit "mychannel", some (lit "MY"), krLogLevelWarn, 0⟩,
          ⟨lit "rtc", some (lit "RTC"), krLogLevelWarn, 0⟩ ]
        [] := by
  decide

end karere
